import Mathlib

/-
Verification of the pigeon kanban-board repository against its specification.

The repository contains several interchangeable variants of the same service:
  src/app/lexorank.py  (midpoint), src/app/utils.py (lexo_midpoint) and
  src/server.py        (midpoint) are three textually identical copies of the
  fractional-indexing key algorithm over the 36-symbol alphabet
  "0123456789abcdefghijklmnopqrstuvwxyz";
  src/app/main.py + src/app/db.py is the FastAPI/SQLAlchemy variant;
  src/server.py is the stdlib-http/sqlite variant;
  src/app/storage.py + src/app/models.py is the in-memory variant.

This file embeds those parts as executable Lean definitions and proves or
refutes the frozen claims about them.  The while loop of the key algorithm is
embedded with an explicit fuel argument (length of both inputs plus one is
shown to be enough fuel: the loop always returns once the scan position has
passed the end of both inputs).
-/

/-! Key space: digit-level core.

The Python code maps characters through the dictionaries A2I/I2A and works on
digit values 0..35.  `midAuxD` is the loop of `midpoint` on digit lists;
position i of the Python loop corresponds to the tails passed here, and the
per-step bounds `l`/`r` default to MIN = 0 and MAX = 35 past the end of an
input, exactly as in the source. -/

def midAuxD : Nat → List Nat → List Nat → List Nat
  | 0, _, _ => []
  | fuel + 1, L, R =>
    let l := L.headD 0
    let r := R.headD 35
    if l + 1 < r then [(l + r) / 2]
    else l :: midAuxD fuel L.tail R.tail

/-- keyLt is lexicographic strict order on digit lists: a proper prefix is
smaller, otherwise the first differing digit decides. -/
def keyLt : List Nat → List Nat → Bool
  | _, [] => false
  | [], _ :: _ => true
  | a :: as, b :: bs => decide (a < b) || (a == b && keyLt as bs)

/-- badPad L R holds exactly when R is L followed by one or more 0 digits,
the one shape of bounds on which the midpoint algorithm overshoots its right
bound (see the claim C1 analysis below). -/
def badPad : List Nat → List Nat → Bool
  | [], [] => false
  | [], r :: rs => (r == 0) && rs.all (fun d => d == 0)
  | _ :: _, [] => false
  | a :: as, b :: bs => (a == b) && badPad as bs

/-! Key space: character level, translated from src/app/lexorank.py,
src/app/utils.py and src/server.py (the three copies are identical). -/

def ALPHABET : List Char := "0123456789abcdefghijklmnopqrstuvwxyz".toList

/-- A2I is the Python dict mapping each alphabet character to its index; on a
character outside the alphabet the dict lookup raises, which is outside every
claim (all claims restrict keys to the alphabet). -/
def A2I (c : Char) : Nat := ALPHABET.indexOf c

/-- I2A is the Python dict mapping an index 0..35 back to its character. -/
def I2A (d : Nat) : Char := ALPHABET.getD d '0'

def MIN : Nat := 0

def MAX : Nat := 35

/-- The while loop of midpoint at character level, with fuel. -/
def midAux : Nat → List Char → List Char → List Char
  | 0, _, _ => []
  | fuel + 1, L, R =>
    let l := match L with | [] => MIN | c :: _ => A2I c
    let r := match R with | [] => MAX | c :: _ => A2I c
    if l + 1 < r then [I2A ((l + r) / 2)]
    else I2A l :: midAux fuel L.tail R.tail

def midpointFrom (L R : List Char) : List Char :=
  midAux (L.length + R.length + 1) L R

/-- lexo_midpoint (utils.py), identical to midpoint (lexorank.py, server.py):
`L = left or ""` and `R = right or ""` turn an absent bound into the empty
string, then the scan loop runs. -/
def lexo_midpoint (left right : Option (List Char)) : List Char :=
  midpointFrom (left.getD []) (right.getD [])

/-- strLt is lexicographic strict order on character lists, i.e. ordinary
string order: Python `left < right` on str. -/
def strLt : List Char → List Char → Bool
  | _, [] => false
  | [], _ :: _ => true
  | a :: as, b :: bs => decide (a < b) || (a == b && strLt as bs)

def isKeyChar (c : Char) : Bool := ALPHABET.contains c

/-- A key in the sense of the spec: a non-empty string over the alphabet. -/
def isKey (s : List Char) : Bool := !s.isEmpty && s.all isKeyChar

/-- Character-level version of badPad: right equals left followed by one or
more of the minimal symbol. -/
def zeroPadFrom : List Char → List Char → Bool
  | [], [] => false
  | [], r :: rs => (r == '0') && rs.all (fun c => c == '0')
  | _ :: _, [] => false
  | a :: as, b :: bs => (a == b) && zeroPadFrom as bs

def firstSeq (k : List Char) : Nat → List Char
  | 0 => k
  | n + 1 => lexo_midpoint none (some (firstSeq k n))

/-! Error taxonomy.  The handlers report these as HTTP statuses: forbidden 403,
notFound 404, preconditionFailed 412, validationError 422 (empty or oversized
field, invalid role), invalidAnchor 422 (invalid beforeColumnId /
afterColumnId / beforeCardId / afterCardId detail), invalidMove 409 or 422
(invalid_move detail), lastAdminRequired 409 (last_admin_required detail). -/
inductive ApiError where
  | forbidden
  | notFound
  | preconditionFailed
  | validationError
  | invalidAnchor
  | invalidMove
  | lastAdminRequired
deriving DecidableEq

def quoteChar : Char := Char.ofNat 34

/-- Python str.strip with the quote character as argument: drop quote
characters from both ends, as in the handlers if_match.strip of a quote. -/
def stripQuotes (s : String) : String :=
  String.mk (((s.toList.dropWhile fun c => c == quoteChar).reverse.dropWhile
    fun c => c == quoteChar).reverse)

/-- Python str.strip without arguments: drop whitespace from both ends. -/
def pyStrip (s : String) : String :=
  String.mk (((s.toList.dropWhile Char.isWhitespace).reverse.dropWhile
    Char.isWhitespace).reverse)

/-- Python `x or default` on strings: the empty string is falsy. -/
def pyOrStr (o : Option String) (dflt : String) : String :=
  match o with
  | none => dflt
  | some s => if s == "" then dflt else s

/-! FastAPI/SQLAlchemy variant: src/app/main.py over the models of
src/app/db.py.  Board and ColumnModel carry no version column there; Card
does.  Timestamps are abstracted to a Nat tick passed as `now`; the
DateTime onupdate hook of the models refreshes updated_at on every UPDATE. -/

structure ABoard where
  id : String
  name : String
  description : Option String
  owner : String
  createdAt : Nat
  updatedAt : Nat
deriving DecidableEq

structure AColumn where
  id : String
  boardId : String
  name : String
  sortKey : List Char
  createdAt : Nat
  updatedAt : Nat
deriving DecidableEq

structure ACard where
  id : String
  boardId : String
  columnId : String
  title : String
  description : Option String
  sortKey : List Char
  version : Nat
  createdAt : Nat
  updatedAt : Nat
deriving DecidableEq

structure AMembership where
  boardId : String
  userId : String
  role : String
  status : String
  invitedBy : Option String
  displayName : Option String
  avatarUrl : Option String
deriving DecidableEq

structure AState where
  boards : List ABoard
  columns : List AColumn
  cards : List ACard
  members : List AMembership
deriving DecidableEq

def findBoardA (st : AState) (bid : String) : Option ABoard :=
  st.boards.find? (fun b => b.id == bid)

def findColumnA (st : AState) (cid : String) : Option AColumn :=
  st.columns.find? (fun c => c.id == cid)

def findCardA (st : AState) (cid : String) : Option ACard :=
  st.cards.find? (fun c => c.id == cid)

def findMemberA (st : AState) (bid uid : String) : Option AMembership :=
  st.members.find? (fun m => m.boardId == bid && m.userId == uid)

/-- get_role: the owner is implicit admin, otherwise the active membership
row decides. -/
def appGetRole (st : AState) (b : ABoard) (uid : String) : Option String :=
  if b.owner == uid then some "admin"
  else
    match st.members.find? (fun m =>
        m.boardId == b.id && m.userId == uid && m.status == "active") with
    | none => none
    | some m => some m.role

/-- ensure_role: `if not role or role not in required` fails with 403; an
empty-string role is falsy in Python. -/
def ensureRole (required : List String) (role : Option String) : Bool :=
  match role with
  | none => false
  | some r => !(r == "") && required.contains r

/-- Anchor resolution step of compute_column_sort_key: a truthy id must name
a column of this board, else 422 invalid anchor. -/
def resolveColumnAnchor (st : AState) (boardId : String) (anchor : Option String) :
    Except ApiError (Option (List Char)) :=
  match anchor with
  | none => Except.ok none
  | some x =>
    if x == "" then Except.ok none
    else
      match findColumnA st x with
      | none => Except.error ApiError.invalidAnchor
      | some c =>
        if c.boardId != boardId then Except.error ApiError.invalidAnchor
        else Except.ok (some c.sortKey)

/-- compute_column_sort_key: before resolves to the right bound, after to the
left bound, then the midpoint is taken. -/
def appComputeColumnSortKey (st : AState) (boardId : String)
    (beforeId afterId : Option String) : Except ApiError (List Char) :=
  match resolveColumnAnchor st boardId beforeId with
  | Except.error e => Except.error e
  | Except.ok right =>
    match resolveColumnAnchor st boardId afterId with
    | Except.error e => Except.error e
    | Except.ok left => Except.ok (lexo_midpoint left right)

/-- Anchor resolution step of get_card_anchors: a truthy id must name a card
of this board in the destination column. -/
def resolveCardAnchor (st : AState) (boardId toColumnId : String)
    (anchor : Option String) : Except ApiError (Option (List Char)) :=
  match anchor with
  | none => Except.ok none
  | some x =>
    if x == "" then Except.ok none
    else
      match findCardA st x with
      | none => Except.error ApiError.invalidAnchor
      | some c =>
        if c.boardId != boardId || c.columnId != toColumnId then
          Except.error ApiError.invalidAnchor
        else Except.ok (some c.sortKey)

/-- get_card_anchors returning (left, right). -/
def appGetCardAnchors (st : AState) (boardId toColumnId : String)
    (beforeId afterId : Option String) :
    Except ApiError (Option (List Char) × Option (List Char)) :=
  match resolveCardAnchor st boardId toColumnId beforeId with
  | Except.error e => Except.error e
  | Except.ok right =>
    match resolveCardAnchor st boardId toColumnId afterId with
    | Except.error e => Except.error e
    | Except.ok left => Except.ok (left, right)

/-- create_column handler (main.py 266-291). -/
def appCreateColumn (st : AState) (now : Nat) (newId uid bid : String)
    (nameP : String) (beforeP afterP : Option String) : AState × Option ApiError :=
  match findBoardA st bid with
  | none => (st, some ApiError.notFound)
  | some b =>
    if !(ensureRole ["admin", "writer"] (appGetRole st b uid)) then
      (st, some ApiError.forbidden)
    else
      let name := pyStrip nameP
      if name == "" then (st, some ApiError.validationError)
      else
        match appComputeColumnSortKey st b.id beforeP afterP with
        | Except.error e => (st, some e)
        | Except.ok sortKey =>
          ({ st with columns := st.columns ++
              [{ id := newId, boardId := b.id, name := name, sortKey := sortKey,
                 createdAt := now, updatedAt := now }] }, none)

/-- move_column handler (main.py 324-352).  The `conflict` flag says whether
the first commit raises IntegrityError; session rollback discards the pending
attribute changes and expires the instance, after which only
sort_key := new_key + "m" is re-applied and updated_at refreshes through the
onupdate hook at the second commit. -/
def appMoveColumn (st : AState) (now : Nat) (uid bid colId : String)
    (beforeP afterP : Option String) (conflict : Bool) : AState × Option ApiError :=
  match findBoardA st bid with
  | none => (st, some ApiError.notFound)
  | some b =>
    if !(ensureRole ["admin", "writer"] (appGetRole st b uid)) then
      (st, some ApiError.forbidden)
    else
      match findColumnA st colId with
      | none => (st, some ApiError.notFound)
      | some c =>
        if c.boardId != b.id then (st, some ApiError.notFound)
        else
          match appComputeColumnSortKey st b.id beforeP afterP with
          | Except.error e => (st, some e)
          | Except.ok newKey =>
            if !conflict then
              ({ st with columns := st.columns.map (fun x =>
                  if x.id == colId then
                    { x with sortKey := newKey, updatedAt := now } else x) }, none)
            else
              ({ st with columns := st.columns.map (fun x =>
                  if x.id == colId then
                    { x with sortKey := newKey ++ ['m'], updatedAt := now } else x) }, none)

/-- update_card handler (main.py 438-479).  If-Match carries the version as a
possibly quoted integer and is compared against str(version) after stripping
quotes; the version check happens before any field is written. -/
def appUpdateCard (st : AState) (now : Nat) (uid bid colId cardId : String)
    (titleP : Option String) (descP : Option String) (ifMatch : Option String) :
    AState × Option ApiError :=
  match findBoardA st bid with
  | none => (st, some ApiError.notFound)
  | some b =>
    if !(ensureRole ["admin", "writer"] (appGetRole st b uid)) then
      (st, some ApiError.forbidden)
    else
      match findCardA st cardId with
      | none => (st, some ApiError.notFound)
      | some cd =>
        if cd.boardId != b.id || cd.columnId != colId then (st, some ApiError.notFound)
        else if (match ifMatch with
            | some tok => stripQuotes tok != toString cd.version
            | none => false) then
          (st, some ApiError.preconditionFailed)
        else if (match titleP with
            | some t => pyStrip t == ""
            | none => false) then
          (st, some ApiError.validationError)
        else
          let newTitle := match titleP with
            | some t => pyStrip t
            | none => cd.title
          let newDescription := match descP with
            | some d => some d
            | none => cd.description
          ({ st with cards := st.cards.map (fun c =>
              if c.id == cardId then
                { c with title := newTitle, description := newDescription, version := c.version + 1, updatedAt := now }
              else c) }, none)

/-- delete_card handler (main.py 529-550). -/
def appDeleteCard (st : AState) (uid bid colId cardId : String)
    (ifMatch : Option String) : AState × Option ApiError :=
  match findBoardA st bid with
  | none => (st, some ApiError.notFound)
  | some b =>
    if !(ensureRole ["admin", "writer"] (appGetRole st b uid)) then
      (st, some ApiError.forbidden)
    else
      match findCardA st cardId with
      | none => (st, some ApiError.notFound)
      | some cd =>
        if cd.boardId != b.id || cd.columnId != colId then (st, some ApiError.notFound)
        else if (match ifMatch with
            | some tok => stripQuotes tok != toString cd.version
            | none => false) then
          (st, some ApiError.preconditionFailed)
        else
          ({ st with cards := st.cards.filter (fun c => !(c.id == cardId)) }, none)

/-- move_card handler (main.py 482-526).  Best-effort: expectedVersion is
optional and only checked when supplied.  On the IntegrityError retry path the
rollback discards the pending column_id, sort_key and version changes and
expires the instance, so the retry re-applies only sort_key := new_key + "m"
and version := stored version + 1; the column_id change from before the
rollback is lost, and updated_at refreshes through the onupdate hook. -/
def appMoveCard (st : AState) (now : Nat) (uid bid cardId : String)
    (toColP beforeP afterP : Option String) (expectedVersion : Option Nat)
    (conflict : Bool) : AState × Option ApiError :=
  match findBoardA st bid with
  | none => (st, some ApiError.notFound)
  | some b =>
    if !(ensureRole ["admin", "writer"] (appGetRole st b uid)) then
      (st, some ApiError.forbidden)
    else
      match findCardA st cardId with
      | none => (st, some ApiError.notFound)
      | some cd =>
        if cd.boardId != b.id then (st, some ApiError.notFound)
        else
          let toColumnId := pyOrStr toColP cd.columnId
          match findColumnA st toColumnId with
          | none => (st, some ApiError.invalidMove)
          | some toCol =>
            if toCol.boardId != b.id then (st, some ApiError.invalidMove)
            else if (match expectedVersion with
                | some v => !(v == cd.version)
                | none => false) then
              (st, some ApiError.preconditionFailed)
            else
              match appGetCardAnchors st b.id toColumnId beforeP afterP with
              | Except.error e => (st, some e)
              | Except.ok (left, right) =>
                let newKey := lexo_midpoint left right
                if !conflict then
                  ({ st with cards := st.cards.map (fun c =>
                      if c.id == cardId then
                        { c with columnId := toColumnId, sortKey := newKey, version := c.version + 1, updatedAt := now }
                      else c) }, none)
                else
                  ({ st with cards := st.cards.map (fun c =>
                      if c.id == cardId then
                        { c with sortKey := newKey ++ ['m'], version := c.version + 1, updatedAt := now }
                      else c) }, none)

/-- change_member_role handler (main.py 675-707).  The last-admin guard counts
admin-role membership rows of the board regardless of status. -/
def appChangeMemberRole (st : AState) (uid bid targetUid : String)
    (payloadRole : String) : AState × Option ApiError :=
  match findBoardA st bid with
  | none => (st, some ApiError.notFound)
  | some b =>
    if !(ensureRole ["admin"] (appGetRole st b uid)) then (st, some ApiError.forbidden)
    else
      match findMemberA st b.id targetUid with
      | none => (st, some ApiError.notFound)
      | some m =>
        if !(["admin", "writer", "reader"].contains payloadRole) then
          (st, some ApiError.validationError)
        else if m.role == "admin" && payloadRole != "admin" then
          if st.members.countP (fun x => x.boardId == b.id && x.role == "admin") ≤ 1 then
            (st, some ApiError.lastAdminRequired)
          else
            ({ st with members := st.members.map (fun x =>
                if x.boardId == b.id && x.userId == targetUid then
                  { x with role := payloadRole } else x) }, none)
        else
          ({ st with members := st.members.map (fun x =>
              if x.boardId == b.id && x.userId == targetUid then
                { x with role := payloadRole } else x) }, none)

/-- remove_member handler (main.py 710-729). -/
def appRemoveMember (st : AState) (uid bid targetUid : String) :
    AState × Option ApiError :=
  match findBoardA st bid with
  | none => (st, some ApiError.notFound)
  | some b =>
    if !(ensureRole ["admin"] (appGetRole st b uid)) then (st, some ApiError.forbidden)
    else
      match findMemberA st b.id targetUid with
      | none => (st, some ApiError.notFound)
      | some m =>
        if m.role == "admin" &&
            st.members.countP (fun x => x.boardId == b.id && x.role == "admin") ≤ 1 then
          (st, some ApiError.lastAdminRequired)
        else
          ({ st with members := st.members.filter (fun x =>
              !(x.boardId == b.id && x.userId == targetUid)) }, none)

/-- leave_board handler (main.py 754-770): leaving without a membership row is
a silent success. -/
def appLeaveBoard (st : AState) (uid bid : String) : AState × Option ApiError :=
  match findBoardA st bid with
  | none => (st, some ApiError.notFound)
  | some b =>
    match findMemberA st b.id uid with
    | none => (st, none)
    | some m =>
      if m.role == "admin" &&
          st.members.countP (fun x => x.boardId == b.id && x.role == "admin") ≤ 1 then
        (st, some ApiError.lastAdminRequired)
      else
        ({ st with members := st.members.filter (fun x =>
            !(x.boardId == b.id && x.userId == uid)) }, none)

/-- An effective admin of a board: the owner, or an active admin-role member. -/
def isEffAdminApp (st : AState) (b : ABoard) (u : String) : Bool :=
  b.owner == u || st.members.any (fun m =>
    m.boardId == b.id && m.userId == u && m.role == "admin" && m.status == "active")

/-! Stdlib/sqlite variant: src/server.py.  Every entity row carries a version
column there.  Request connections never re-issue PRAGMA foreign_keys, so
DELETE does not cascade at runtime; deletes remove only the named row. -/

structure SBoard where
  id : String
  name : String
  description : Option String
  owner : String
  createdAt : Nat
  updatedAt : Nat
  version : Nat
deriving DecidableEq

structure SColumn where
  id : String
  boardId : String
  name : String
  sortKey : List Char
  createdAt : Nat
  updatedAt : Nat
  version : Nat
deriving DecidableEq

structure SCard where
  id : String
  boardId : String
  columnId : String
  title : String
  description : Option String
  sortKey : List Char
  createdAt : Nat
  updatedAt : Nat
  version : Nat
deriving DecidableEq

structure SMembership where
  boardId : String
  userId : String
  role : String
  status : String
  invitedBy : Option String
  createdAt : Nat
  updatedAt : Nat
deriving DecidableEq

structure SState where
  boards : List SBoard
  columns : List SColumn
  cards : List SCard
  members : List SMembership
deriving DecidableEq

def findBoardS (st : SState) (bid : String) : Option SBoard :=
  st.boards.find? (fun b => b.id == bid)

def findCardS (st : SState) (cid : String) : Option SCard :=
  st.cards.find? (fun c => c.id == cid)

def findColumnScopedS (st : SState) (cid bid : String) : Option SColumn :=
  st.columns.find? (fun c => c.id == cid && c.boardId == bid)

def findCardScopedS (st : SState) (cid bid colid : String) : Option SCard :=
  st.cards.find? (fun c => c.id == cid && c.boardId == bid && c.columnId == colid)

/-- role_for_user (server.py 143-160). -/
def srvRoleForUser (st : SState) (bid uid : String) : Option String :=
  match findBoardS st bid with
  | none => none
  | some b =>
    if b.owner == uid then some "admin"
    else
      match st.members.find? (fun m =>
          m.boardId == bid && m.userId == uid && m.status == "active") with
      | none => none
      | some m => some m.role

/-- The role order dict of require_member, with default 0 for unknown roles. -/
def roleOrder (r : String) : Nat :=
  if r == "reader" then 1 else if r == "writer" then 2 else if r == "admin" then 3 else 0

/-- require_member (server.py 163-167). -/
def srvRequireMember (role : Option String) (minRole : String) : Bool :=
  match role with
  | none => false
  | some r => roleOrder minRole ≤ roleOrder r

/-- The get_key helper of the column endpoints (server.py 404-409, 562-570):
a falsy or unresolvable anchor id yields None, silently. -/
def srvColumnKey (st : SState) (bid : String) (anchor : Option String) :
    Option (List Char) :=
  match anchor with
  | none => none
  | some cid =>
    if cid == "" then none
    else
      match findColumnScopedS st cid bid with
      | none => none
      | some c => some c.sortKey

/-- The get_card_key / get_key helper of the card endpoints (server.py
453-461, 515-523): a falsy or unresolvable anchor id yields None, silently. -/
def srvCardKey (st : SState) (bid colid : String) (anchor : Option String) :
    Option (List Char) :=
  match anchor with
  | none => none
  | some cid =>
    if cid == "" then none
    else
      match findCardScopedS st cid bid colid with
      | none => none
      | some c => some c.sortKey

/-- POST columns handler (server.py 391-431). -/
def srvCreateColumn (st : SState) (now : Nat) (newId uid bid : String)
    (nameP : Option String) (beforeP afterP : Option String) :
    SState × Option ApiError :=
  if !(srvRequireMember (srvRoleForUser st bid uid) "writer") then
    (st, some ApiError.forbidden)
  else
    let name := pyStrip (pyOrStr nameP "")
    if name.length == 0 || 80 < name.length then (st, some ApiError.validationError)
    else
      let leftKey := srvColumnKey st bid afterP
      let rightKey := srvColumnKey st bid beforeP
      let sortKey := lexo_midpoint leftKey rightKey
      ({ st with columns := st.columns ++
          [{ id := newId, boardId := bid, name := name, sortKey := sortKey, createdAt := now, updatedAt := now, version := 1 }] }, none)

/-- POST cards/{cardId}:move handler (server.py 491-547).  expectedVersion is
mandatory here: a missing or mismatching value is a 412. -/
def srvMoveCard (st : SState) (now : Nat) (uid bid cardId : String)
    (toColP beforeP afterP : Option String) (expectedVersion : Option Nat) :
    SState × Option ApiError :=
  if !(srvRequireMember (srvRoleForUser st bid uid) "writer") then
    (st, some ApiError.forbidden)
  else
    match findCardS st cardId with
    | none => (st, some ApiError.notFound)
    | some card =>
      if card.boardId != bid then (st, some ApiError.invalidMove)
      else
        let toColumnId := pyOrStr toColP card.columnId
        match findColumnScopedS st toColumnId bid with
        | none => (st, some ApiError.invalidMove)
        | some _ =>
          match expectedVersion with
          | none => (st, some ApiError.preconditionFailed)
          | some v =>
            if !(v == card.version) then (st, some ApiError.preconditionFailed)
            else
              let leftKey := srvCardKey st bid toColumnId afterP
              let rightKey := srvCardKey st bid toColumnId beforeP
              let newKey := lexo_midpoint leftKey rightKey
              ({ st with cards := st.cards.map (fun c =>
                  if c.id == cardId then
                    { c with columnId := toColumnId, sortKey := newKey, updatedAt := now, version := c.version + 1 }
                  else c) }, none)

/-- POST columns/{columnId}:move handler (server.py 549-588): no version
token exists on this endpoint at all. -/
def srvMoveColumn (st : SState) (now : Nat) (uid bid colId : String)
    (beforeP afterP : Option String) : SState × Option ApiError :=
  if !(srvRequireMember (srvRoleForUser st bid uid) "writer") then
    (st, some ApiError.forbidden)
  else
    match findColumnScopedS st colId bid with
    | none => (st, some ApiError.notFound)
    | some _ =>
      let leftKey := srvColumnKey st bid afterP
      let rightKey := srvColumnKey st bid beforeP
      let newKey := lexo_midpoint leftKey rightKey
      ({ st with columns := st.columns.map (fun c =>
          if c.id == colId then
            { c with sortKey := newKey, updatedAt := now, version := c.version + 1 }
          else c) }, none)

/-- PATCH boards/{boardId} handler (server.py 629-665): If-Match is required
and compared, quotes stripped, against str(version). -/
def srvPatchBoard (st : SState) (now : Nat) (uid bid : String)
    (nameP : Option String) (descP : Option (Option String))
    (ifMatch : Option String) : SState × Option ApiError :=
  if !(srvRequireMember (srvRoleForUser st bid uid) "writer") then
    (st, some ApiError.forbidden)
  else
    match findBoardS st bid with
    | none => (st, some ApiError.notFound)
    | some b =>
      if (match ifMatch with
          | none => true
          | some tok => stripQuotes tok != toString b.version) then
        (st, some ApiError.preconditionFailed)
      else
        let name := pyStrip (nameP.getD b.name)
        if name.length == 0 || 140 < name.length then (st, some ApiError.validationError)
        else
          let description := match descP with
            | some d => d
            | none => b.description
          ({ st with boards := st.boards.map (fun x =>
              if x.id == bid then
                { x with name := name, description := description, updatedAt := now, version := x.version + 1 }
              else x) }, none)

/-- PATCH columns/{columnId} handler (server.py 667-699). -/
def srvPatchColumn (st : SState) (now : Nat) (uid bid colId : String)
    (nameP : Option String) (ifMatch : Option String) : SState × Option ApiError :=
  if !(srvRequireMember (srvRoleForUser st bid uid) "writer") then
    (st, some ApiError.forbidden)
  else
    match findColumnScopedS st colId bid with
    | none => (st, some ApiError.notFound)
    | some col =>
      if (match ifMatch with
          | none => true
          | some tok => stripQuotes tok != toString col.version) then
        (st, some ApiError.preconditionFailed)
      else
        let name := pyStrip (pyOrStr nameP col.name)
        if name.length == 0 || 80 < name.length then (st, some ApiError.validationError)
        else
          ({ st with columns := st.columns.map (fun x =>
              if x.id == colId then
                { x with name := name, updatedAt := now, version := x.version + 1 }
              else x) }, none)

/-- PATCH cards/{cardId} handler (server.py 701-739). -/
def srvPatchCard (st : SState) (now : Nat) (uid bid colId cardId : String)
    (titleP : Option String) (descP : Option (Option String))
    (ifMatch : Option String) : SState × Option ApiError :=
  if !(srvRequireMember (srvRoleForUser st bid uid) "writer") then
    (st, some ApiError.forbidden)
  else
    match findCardScopedS st cardId bid colId with
    | none => (st, some ApiError.notFound)
    | some card =>
      if (match ifMatch with
          | none => true
          | some tok => stripQuotes tok != toString card.version) then
        (st, some ApiError.preconditionFailed)
      else
        let title := pyStrip (pyOrStr titleP card.title)
        if title.length == 0 || 200 < title.length then (st, some ApiError.validationError)
        else
          let description := match descP with
            | some d => d
            | none => card.description
          if (match description with
              | some d => decide (8000 < d.length)
              | none => false) then
            (st, some ApiError.validationError)
          else
            ({ st with cards := st.cards.map (fun x =>
                if x.id == cardId then
                  { x with title := title, description := description, updatedAt := now, version := x.version + 1 }
                else x) }, none)

/-- DELETE boards/{boardId} handler (server.py 754-772). -/
def srvDeleteBoard (st : SState) (uid bid : String) (ifMatch : Option String) :
    SState × Option ApiError :=
  if !(srvRequireMember (srvRoleForUser st bid uid) "admin") then
    (st, some ApiError.forbidden)
  else
    match findBoardS st bid with
    | none => (st, some ApiError.notFound)
    | some b =>
      if (match ifMatch with
          | none => true
          | some tok => stripQuotes tok != toString b.version) then
        (st, some ApiError.preconditionFailed)
      else
        ({ st with boards := st.boards.filter (fun x => !(x.id == bid)) }, none)

/-- DELETE columns/{columnId} handler (server.py 774-792). -/
def srvDeleteColumn (st : SState) (uid bid colId : String) (ifMatch : Option String) :
    SState × Option ApiError :=
  if !(srvRequireMember (srvRoleForUser st bid uid) "writer") then
    (st, some ApiError.forbidden)
  else
    match findColumnScopedS st colId bid with
    | none => (st, some ApiError.notFound)
    | some col =>
      if (match ifMatch with
          | none => true
          | some tok => stripQuotes tok != toString col.version) then
        (st, some ApiError.preconditionFailed)
      else
        ({ st with columns := st.columns.filter (fun x => !(x.id == colId)) }, none)

/-- DELETE cards/{cardId} handler (server.py 794-812). -/
def srvDeleteCard (st : SState) (uid bid colId cardId : String)
    (ifMatch : Option String) : SState × Option ApiError :=
  if !(srvRequireMember (srvRoleForUser st bid uid) "writer") then
    (st, some ApiError.forbidden)
  else
    match findCardScopedS st cardId bid colId with
    | none => (st, some ApiError.notFound)
    | some c =>
      if (match ifMatch with
          | none => true
          | some tok => stripQuotes tok != toString c.version) then
        (st, some ApiError.preconditionFailed)
      else
        ({ st with cards := st.cards.filter (fun x => !(x.id == cardId)) }, none)

/-- POST boards/{boardId}:leave handler (server.py 590-611): an admin may
leave only if the board has at least one active admin-role membership row. -/
def srvLeave (st : SState) (uid bid : String) : SState × Option ApiError :=
  match srvRoleForUser st bid uid with
  | none => (st, some ApiError.notFound)
  | some role =>
    if role == "admin" &&
        st.members.countP (fun m =>
          m.boardId == bid && m.role == "admin" && m.status == "active") == 0 then
      (st, some ApiError.lastAdminRequired)
    else
      ({ st with members := st.members.filter (fun m =>
          !(m.boardId == bid && m.userId == uid)) }, none)

/-- An effective admin in the stdlib variant. -/
def isEffAdminSrv (st : SState) (b : SBoard) (u : String) : Bool :=
  b.owner == u || st.members.any (fun m =>
    m.boardId == b.id && m.userId == u && m.role == "admin" && m.status == "active")

/-! Concrete fixture states used by witnesses and counterexamples. -/

def boardA1 : ABoard :=
  { id := "b1", name := "Board", description := none, owner := "alice",
    createdAt := 0, updatedAt := 0 }

def colA1 : AColumn :=
  { id := "c1", boardId := "b1", name := "Todo", sortKey := ['b'],
    createdAt := 0, updatedAt := 0 }

def colA2 : AColumn :=
  { id := "c2", boardId := "b1", name := "Doing", sortKey := ['d'],
    createdAt := 0, updatedAt := 0 }

def colA3 : AColumn :=
  { id := "c3", boardId := "b1", name := "Done", sortKey := ['z'],
    createdAt := 0, updatedAt := 0 }

def cardK1 : ACard :=
  { id := "k1", boardId := "b1", columnId := "c1", title := "Task",
    description := none, sortKey := ['h'], version := 3,
    createdAt := 0, updatedAt := 0 }

def cardK2 : ACard :=
  { id := "k2", boardId := "b1", columnId := "c2", title := "Other",
    description := none, sortKey := ['t'], version := 1,
    createdAt := 0, updatedAt := 0 }

def memAlice : AMembership :=
  { boardId := "b1", userId := "alice", role := "admin", status := "active",
    invitedBy := none, displayName := some "alice", avatarUrl := none }

def memBob : AMembership :=
  { boardId := "b1", userId := "bob", role := "writer", status := "active",
    invitedBy := some "alice", displayName := some "bob", avatarUrl := none }

def memCarol : AMembership :=
  { boardId := "b1", userId := "carol", role := "admin", status := "active",
    invitedBy := some "alice", displayName := some "carol", avatarUrl := none }

def stA : AState :=
  { boards := [boardA1], columns := [colA1, colA2, colA3],
    cards := [cardK1, cardK2], members := [memAlice, memBob, memCarol] }

def boardA2 : ABoard :=
  { id := "b2", name := "Solo", description := none, owner := "alice",
    createdAt := 0, updatedAt := 0 }

def memAliceSolo : AMembership :=
  { boardId := "b2", userId := "alice", role := "admin", status := "active",
    invitedBy := none, displayName := some "alice", avatarUrl := none }

def stA2 : AState :=
  { boards := [boardA2], columns := [], cards := [], members := [memAliceSolo] }

def boardS1 : SBoard :=
  { id := "B1", name := "Board", description := none, owner := "alice",
    createdAt := 0, updatedAt := 0, version := 2 }

def colS1 : SColumn :=
  { id := "C1", boardId := "B1", name := "Todo", sortKey := ['b'],
    createdAt := 0, updatedAt := 0, version := 1 }

def colS2 : SColumn :=
  { id := "C2", boardId := "B1", name := "Doing", sortKey := ['d'],
    createdAt := 0, updatedAt := 0, version := 1 }

def cardS1 : SCard :=
  { id := "K1", boardId := "B1", columnId := "C1", title := "Task",
    description := none, sortKey := ['h'], createdAt := 0, updatedAt := 0,
    version := 3 }

def cardS2 : SCard :=
  { id := "K2", boardId := "B1", columnId := "C2", title := "Other",
    description := none, sortKey := ['t'], createdAt := 0, updatedAt := 0,
    version := 1 }

def memSBob : SMembership :=
  { boardId := "B1", userId := "bob", role := "writer", status := "active",
    invitedBy := some "alice", createdAt := 0, updatedAt := 0 }

def memSDave : SMembership :=
  { boardId := "B1", userId := "dave", role := "admin", status := "active",
    invitedBy := some "alice", createdAt := 0, updatedAt := 0 }

def stS : SState :=
  { boards := [boardS1], columns := [colS1, colS2], cards := [cardS1, cardS2],
    members := [memSBob, memSDave] }

def boardS2 : SBoard :=
  { id := "B2", name := "Solo", description := none, owner := "alice",
    createdAt := 0, updatedAt := 0, version := 1 }

def stS2 : SState :=
  { boards := [boardS2], columns := [], cards := [], members := [] }

/-! The persistence-layer uniqueness constraints of src/app/db.py, and the
intended constraint of the spec. -/

/-- uq_columns_order as written in db.py: UniqueConstraint over
(board_id, sort_key, id) — the id is part of the constrained column set. -/
def uqColumnsOrder (cols : List AColumn) : Prop :=
  (cols.map (fun c => (c.boardId, c.sortKey, c.id))).Nodup

/-- uq_cards_order as written in db.py: UniqueConstraint over
(board_id, column_id, sort_key, id). -/
def uqCardsOrder (cards : List ACard) : Prop :=
  (cards.map (fun c => (c.boardId, c.columnId, c.sortKey, c.id))).Nodup

/-- Modelled from the spec: the intended uniqueness constraint of section 4.2
and the section 9 note — sortKey unique within its scope, the id excluded. -/
def uqColumnsIntended (cols : List AColumn) : Prop :=
  (cols.map (fun c => (c.boardId, c.sortKey))).Nodup

def colX : AColumn :=
  { id := "x1", boardId := "b1", name := "One", sortKey := ['h'],
    createdAt := 0, updatedAt := 0 }

def colY : AColumn :=
  { id := "x2", boardId := "b1", name := "Two", sortKey := ['h'],
    createdAt := 0, updatedAt := 0 }

/-! Theorems. -/

theorem keyLt_nil_right (x : List Nat) : keyLt x [] = false := by
  cases x <;> rfl

theorem keyLt_nil_left (y : List Nat) : keyLt [] y = true ↔ y ≠ [] := by
  cases y <;> simp [keyLt]

theorem tail_len_lt {L R : List Nat} (h : L ≠ [] ∨ R ≠ []) :
    L.tail.length + R.tail.length < L.length + R.length := by
  match L, R with
  | [], [] => simp at h
  | [], b :: bs => simp
  | a :: as, [] => simp
  | a :: as, b :: bs => simp; omega

theorem midAuxD_not_both_nil {L R : List Nat}
    (h : ¬ (L.headD 0 + 1 < R.headD 35)) : L ≠ [] ∨ R ≠ [] := by
  by_contra hc
  push_neg at hc
  obtain ⟨h1, h2⟩ := hc
  subst h1; subst h2
  simp [List.headD] at h

theorem midAuxD_congr : ∀ f g L R, L.length + R.length < f → L.length + R.length < g →
    midAuxD f L R = midAuxD g L R := by
  intro f
  induction f with
  | zero => intro g L R h; omega
  | succ f ih =>
    intro g L R hf hg
    match g with
    | 0 => omega
    | g + 1 =>
      simp only [midAuxD]
      split
      · rfl
      · rename_i hcond
        have hne := midAuxD_not_both_nil hcond
        have ht := tail_len_lt hne
        rw [ih g L.tail R.tail (by omega) (by omega)]

theorem midAuxD_ne_nil : ∀ f L R, L.length + R.length < f → midAuxD f L R ≠ [] := by
  intro f L R hf
  match f with
  | 0 => omega
  | f + 1 =>
    simp only [midAuxD]
    split <;> simp

theorem midAuxD_lower : ∀ f L R, L.length + R.length < f → keyLt L (midAuxD f L R) = true := by
  intro f
  induction f with
  | zero => intro L R h; omega
  | succ f ih =>
    intro L R hf
    match L, R with
    | [], R =>
      have hne := midAuxD_ne_nil (f + 1) [] R hf
      rcases hm : midAuxD (f + 1) [] R with _ | ⟨x, xs⟩
      · exact absurd hm hne
      · simp [keyLt]
    | a :: as, [] =>
      simp only [midAuxD, List.headD_cons, List.headD_nil, List.tail_cons, List.tail_nil]
      have hcond : a + 1 < 35 ∨ ¬ (a + 1 < 35) := by omega
      rcases hcond with hc | hc
      · have ha : a < (a + 35) / 2 := by omega
        simp [keyLt, hc, ha]
      · have hlen : as.length + ([] : List Nat).length < f := by simp at hf ⊢; omega
        simp [keyLt, hc, ih as [] hlen]
    | a :: as, b :: bs =>
      simp only [midAuxD, List.headD_cons, List.tail_cons]
      have hcond : a + 1 < b ∨ ¬ (a + 1 < b) := by omega
      rcases hcond with hc | hc
      · have ha : a < (a + b) / 2 := by omega
        simp [keyLt, hc, ha]
      · have hlen : as.length + bs.length < f := by simp at hf; omega
        simp [keyLt, hc, ih as bs hlen]

theorem midAuxD_upper : ∀ f L R xs, L.length + R.length < f → keyLt L R = true →
    badPad L R = false → keyLt (midAuxD f L R ++ xs) R = true := by
  intro f
  induction f with
  | zero => intro L R xs h; omega
  | succ f ih =>
    intro L R xs hf hlt hbp
    match L, R with
    | L, [] => rw [keyLt_nil_right] at hlt; exact absurd hlt (by simp)
    | [], b :: bs =>
      simp only [midAuxD, List.headD_cons, List.headD_nil, List.tail_cons, List.tail_nil]
      have hcond : 0 + 1 < b ∨ b = 1 ∨ b = 0 := by omega
      rcases hcond with hc | hc | hc
      · have hm : b / 2 < b := by omega
        simp [keyLt, hc, hm]
      · subst hc
        simp [keyLt]
      · subst hc
        simp only [badPad, beq_self_eq_true, Bool.true_and] at hbp
        have hbs : bs ≠ [] := by
          intro h; subst h; simp at hbp
        have hlt2 : keyLt [] bs = true := (keyLt_nil_left bs).mpr hbs
        have hbp2 : badPad [] bs = false := by
          rcases bs with _ | ⟨c, cs⟩
          · simp at hbp
          · simpa [badPad] using hbp
        have hlen : ([] : List Nat).length + bs.length < f := by simp at hf ⊢; omega
        have hrec := ih [] bs xs hlen hlt2 hbp2
        simp [keyLt, hrec]
    | a :: as, b :: bs =>
      simp only [keyLt, Bool.or_eq_true, decide_eq_true_eq, Bool.and_eq_true,
        beq_iff_eq] at hlt
      simp only [midAuxD, List.headD_cons, List.tail_cons]
      have hcond : a + 1 < b ∨ ¬ (a + 1 < b) := by omega
      rcases hcond with hc | hc
      · have hm : (a + b) / 2 < b := by omega
        simp [keyLt, hc, hm]
      · rcases hlt with hab | ⟨hab, htail⟩
        · simp [keyLt, hc, hab]
        · subst hab
          simp only [badPad, beq_self_eq_true, Bool.true_and] at hbp
          have hlen : as.length + bs.length < f := by simp at hf; omega
          have hrec := ih as bs xs hlen htail hbp
          simp [keyLt, hc, hrec]

theorem midAuxD_mem_lt : ∀ f L R, (∀ d ∈ L, d < 36) → (∀ d ∈ R, d < 36) →
    ∀ d ∈ midAuxD f L R, d < 36 := by
  intro f
  induction f with
  | zero => intro L R _ _ d hd; simp [midAuxD] at hd
  | succ f ih =>
    intro L R hL hR d hd
    match L, R with
    | [], [] =>
      simp [midAuxD] at hd
      omega
    | [], b :: bs =>
      have hb : b < 36 := hR b (by simp)
      have hbs : ∀ x ∈ bs, x < 36 := fun x hx => hR x (by simp [hx])
      simp only [midAuxD, List.headD_cons, List.headD_nil, List.tail_cons, List.tail_nil] at hd
      rcases Nat.lt_or_ge (0 + 1) b with hc | hc
      · simp [hc] at hd; omega
      · rw [if_neg (by omega)] at hd
        simp at hd
        rcases hd with hd | hd
        · omega
        · exact ih [] bs (by simp) hbs d hd
    | a :: as, [] =>
      have ha : a < 36 := hL a (by simp)
      have has : ∀ x ∈ as, x < 36 := fun x hx => hL x (by simp [hx])
      simp only [midAuxD, List.headD_cons, List.headD_nil, List.tail_cons, List.tail_nil] at hd
      rcases Nat.lt_or_ge (a + 1) 35 with hc | hc
      · simp [hc] at hd; omega
      · rw [if_neg (by omega)] at hd
        simp at hd
        rcases hd with hd | hd
        · omega
        · exact ih as [] has (by simp) d hd
    | a :: as, b :: bs =>
      have ha : a < 36 := hL a (by simp)
      have hb : b < 36 := hR b (by simp)
      have has : ∀ x ∈ as, x < 36 := fun x hx => hL x (by simp [hx])
      have hbs : ∀ x ∈ bs, x < 36 := fun x hx => hR x (by simp [hx])
      simp only [midAuxD, List.headD_cons, List.tail_cons] at hd
      rcases Nat.lt_or_ge (a + 1) b with hc | hc
      · simp [hc] at hd; omega
      · rw [if_neg (by omega)] at hd
        simp at hd
        rcases hd with hd | hd
        · omega
        · exact ih as bs has hbs d hd

theorem midAuxD_has_pos : ∀ f L R, L.length + R.length < f →
    ∃ d, d ∈ midAuxD f L R ∧ 1 ≤ d := by
  intro f
  induction f with
  | zero => intro L R h; omega
  | succ f ih =>
    intro L R hf
    match L, R with
    | [], [] =>
      refine ⟨17, ?_, by omega⟩
      simp [midAuxD]
    | [], b :: bs =>
      simp only [midAuxD, List.headD_cons, List.headD_nil, List.tail_cons, List.tail_nil]
      rcases Nat.lt_or_ge (0 + 1) b with hc | hc
      · refine ⟨(0 + b) / 2, ?_, by omega⟩
        simp [hc]
      · rw [if_neg (by omega)]
        have hlen : ([] : List ℕ).length + bs.length < f := by simp at hf ⊢; omega
        obtain ⟨d, hd, hd1⟩ := ih [] bs hlen
        exact ⟨d, by simp [hd], hd1⟩
    | a :: as, [] =>
      simp only [midAuxD, List.headD_cons, List.headD_nil, List.tail_cons, List.tail_nil]
      rcases Nat.lt_or_ge (a + 1) 35 with hc | hc
      · refine ⟨(a + 35) / 2, ?_, by omega⟩
        simp [hc]
      · rw [if_neg (by omega)]
        have hlen : as.length + ([] : List ℕ).length < f := by simp at hf ⊢; omega
        obtain ⟨d, hd, hd1⟩ := ih as [] hlen
        exact ⟨d, by simp [hd], hd1⟩
    | a :: as, b :: bs =>
      simp only [midAuxD, List.headD_cons, List.tail_cons]
      rcases Nat.lt_or_ge (a + 1) b with hc | hc
      · refine ⟨(a + b) / 2, ?_, by omega⟩
        simp [hc]
      · rw [if_neg (by omega)]
        have hlen : as.length + bs.length < f := by simp at hf; omega
        obtain ⟨d, hd, hd1⟩ := ih as bs hlen
        exact ⟨d, by simp [hd], hd1⟩

theorem midAuxD_length : ∀ f L R, L.length + R.length < f →
    (midAuxD f L R).length ≤ max L.length R.length + 1 := by
  intro f
  induction f with
  | zero => intro L R h; omega
  | succ f ih =>
    intro L R hf
    match L, R with
    | [], [] => simp [midAuxD]
    | [], b :: bs =>
      simp only [midAuxD, List.headD_cons, List.headD_nil, List.tail_cons, List.tail_nil]
      rcases Nat.lt_or_ge (0 + 1) b with hc | hc
      · simp [hc]
      · rw [if_neg (by omega)]
        have hlen : ([] : List ℕ).length + bs.length < f := by simp at hf ⊢; omega
        have := ih [] bs hlen
        simp at this ⊢
        omega
    | a :: as, [] =>
      simp only [midAuxD, List.headD_cons, List.headD_nil, List.tail_cons, List.tail_nil]
      rcases Nat.lt_or_ge (a + 1) 35 with hc | hc
      · simp [hc]
      · rw [if_neg (by omega)]
        have hlen : as.length + ([] : List ℕ).length < f := by simp at hf ⊢; omega
        have := ih as [] hlen
        simp at this ⊢
        omega
    | a :: as, b :: bs =>
      simp only [midAuxD, List.headD_cons, List.tail_cons]
      rcases Nat.lt_or_ge (a + 1) b with hc | hc
      · simp [hc]
      · rw [if_neg (by omega)]
        have hlen : as.length + bs.length < f := by simp at hf; omega
        have := ih as bs hlen
        simp at this ⊢
        omega

theorem keyLt_append_right : ∀ a b xs : List Nat, keyLt a b = true → keyLt a (b ++ xs) = true := by
  intro a
  induction a with
  | nil =>
    intro b xs h
    rcases b with _ | ⟨c, cs⟩
    · simp [keyLt] at h
    · simp [keyLt]
  | cons x as ih =>
    intro b xs h
    rcases b with _ | ⟨c, cs⟩
    · rw [keyLt_nil_right] at h; exact absurd h (by simp)
    · simp only [keyLt, Bool.or_eq_true, decide_eq_true_eq, Bool.and_eq_true, beq_iff_eq] at h
      rcases h with h | ⟨h, htail⟩
      · simp [keyLt, h]
      · subst h
        simp [keyLt, ih cs xs htail]

theorem isKeyChar_iff_mem (c : Char) : isKeyChar c = true ↔ c ∈ ALPHABET := by
  simp [isKeyChar, List.elem_iff]

theorem map_tail_eq (l : List Char) (f : Char → Nat) : l.tail.map f = (l.map f).tail := by
  cases l <;> simp

theorem alpha_lt_iff : ∀ c ∈ ALPHABET, ∀ d ∈ ALPHABET, (c < d ↔ A2I c < A2I d) := by decide

theorem alpha_eq_iff : ∀ c ∈ ALPHABET, ∀ d ∈ ALPHABET, (c = d ↔ A2I c = A2I d) := by decide

theorem alpha_a2i_lt : ∀ c ∈ ALPHABET, A2I c < 36 := by decide

theorem i2a_mem : ∀ d ∈ List.range 36, I2A d ∈ ALPHABET := by decide

theorem a2i_i2a : ∀ d ∈ List.range 36, A2I (I2A d) = d := by decide

theorem i2a_ne_zero : ∀ d ∈ List.range 36, 1 ≤ d → I2A d ≠ '0' := by decide

theorem a2i_zero_char : A2I '0' = 0 := by decide

theorem midAux_eq_digits : ∀ f L R, midAux f L R = (midAuxD f (L.map A2I) (R.map A2I)).map I2A := by
  intro f
  induction f with
  | zero => intro L R; simp [midAux, midAuxD]
  | succ f ih =>
    intro L R
    match L, R with
    | [], [] =>
      simp [midAux, midAuxD, MIN, MAX]
    | [], c :: cs =>
      simp only [midAux, midAuxD, MIN, MAX, List.map_cons, List.map_nil,
        List.headD_cons, List.headD_nil, List.tail_cons, List.tail_nil]
      by_cases hc : 0 + 1 < A2I c
      · simp [hc]
      · simp [hc, ih [] cs]
    | c :: cs, [] =>
      simp only [midAux, midAuxD, MIN, MAX, List.map_cons, List.map_nil,
        List.headD_cons, List.headD_nil, List.tail_cons, List.tail_nil]
      by_cases hc : A2I c + 1 < 35
      · simp [hc]
      · simp [hc, ih cs []]
    | c :: cs, d :: ds =>
      simp only [midAux, midAuxD, MIN, MAX, List.map_cons,
        List.headD_cons, List.tail_cons]
      by_cases hc : A2I c + 1 < A2I d
      · simp [hc]
      · simp [hc, ih cs ds]

theorem map_a2i_i2a : ∀ D : List Nat, (∀ d ∈ D, d < 36) → (D.map I2A).map A2I = D := by
  intro D
  induction D with
  | nil => intro h; simp
  | cons d ds ih =>
    intro h
    have hd : d < 36 := h d (by simp)
    have hds : ∀ x ∈ ds, x < 36 := fun x hx => h x (by simp [hx])
    have := a2i_i2a d (by simpa using hd)
    simp [this, ih hds]

theorem all_head_tail {a : Char} {as : List Char} (h : (a :: as).all isKeyChar = true) :
    a ∈ ALPHABET ∧ as.all isKeyChar = true := by
  simp only [List.all_cons, Bool.and_eq_true] at h
  exact ⟨(isKeyChar_iff_mem a).mp h.1, h.2⟩

theorem beq_zero_char {b : Char} (hb : b ∈ ALPHABET) : (b == '0') = (A2I b == 0) := by
  by_cases he : b = '0'
  · simp [he, a2i_zero_char]
  · have : ¬ A2I b = 0 := by
      intro hcon
      exact he ((alpha_eq_iff b hb '0' (by decide)).mpr (by rw [hcon, a2i_zero_char]))
    simp [he, this]

theorem beq_alpha {a b : Char} (ha : a ∈ ALPHABET) (hb : b ∈ ALPHABET) :
    (a == b) = (A2I a == A2I b) := by
  by_cases he : a = b
  · simp [he]
  · have : ¬ A2I a = A2I b := fun hcon => he ((alpha_eq_iff a ha b hb).mpr hcon)
    simp [he, this]

theorem all_zero_map : ∀ bs : List Char, bs.all isKeyChar = true →
    (bs.all fun c => c == '0') = ((bs.map A2I).all fun d => d == 0) := by
  intro bs
  induction bs with
  | nil => intro h; simp
  | cons c cs ih =>
    intro h
    obtain ⟨hc, hcs⟩ := all_head_tail h
    simp only [List.all_cons, List.map_cons, beq_zero_char hc, ih hcs]

theorem strLt_eq_keyLt : ∀ s t : List Char, s.all isKeyChar = true → t.all isKeyChar = true →
    strLt s t = keyLt (s.map A2I) (t.map A2I) := by
  intro s
  induction s with
  | nil =>
    intro t _ _
    cases t <;> simp [strLt, keyLt]
  | cons a as ih =>
    intro t hs ht
    obtain ⟨ha, has⟩ := all_head_tail hs
    cases t with
    | nil => simp [strLt, keyLt]
    | cons b bs =>
      obtain ⟨hb, hbs⟩ := all_head_tail ht
      simp only [strLt, keyLt, List.map_cons]
      have h1 : decide (a < b) = decide (A2I a < A2I b) := by
        simp [alpha_lt_iff a ha b hb]
      rw [h1, beq_alpha ha hb, ih bs has hbs]

theorem zeroPadFrom_eq_badPad : ∀ s t : List Char, s.all isKeyChar = true → t.all isKeyChar = true →
    zeroPadFrom s t = badPad (s.map A2I) (t.map A2I) := by
  intro s
  induction s with
  | nil =>
    intro t _ ht
    cases t with
    | nil => simp [zeroPadFrom, badPad]
    | cons b bs =>
      obtain ⟨hb, hbs⟩ := all_head_tail ht
      simp only [zeroPadFrom, badPad, List.map_nil, List.map_cons]
      rw [beq_zero_char hb, all_zero_map bs hbs]
  | cons a as ih =>
    intro t hs ht
    obtain ⟨ha, has⟩ := all_head_tail hs
    cases t with
    | nil => simp [zeroPadFrom, badPad]
    | cons b bs =>
      obtain ⟨hb, hbs⟩ := all_head_tail ht
      simp only [zeroPadFrom, badPad, List.map_cons]
      rw [beq_alpha ha hb, ih bs has hbs]

theorem map_len_fuel (L R : List Char) :
    (L.map A2I).length + (R.map A2I).length < L.length + R.length + 1 := by
  simp

theorem midpointFrom_eq (L R : List Char) :
    midpointFrom L R = (midAuxD (L.length + R.length + 1) (L.map A2I) (R.map A2I)).map I2A := by
  unfold midpointFrom
  rw [midAux_eq_digits]

theorem all_a2i_lt {L : List Char} (hL : L.all isKeyChar = true) :
    ∀ d ∈ L.map A2I, d < 36 := by
  intro d hd
  simp only [List.mem_map] at hd
  obtain ⟨c, hc, rfl⟩ := hd
  have : isKeyChar c = true := by
    simp only [List.all_eq_true] at hL
    exact hL c hc
  exact alpha_a2i_lt c ((isKeyChar_iff_mem c).mp this)

theorem midpointFrom_all_alpha {L R : List Char} (hL : L.all isKeyChar = true)
    (hR : R.all isKeyChar = true) : (midpointFrom L R).all isKeyChar = true := by
  rw [midpointFrom_eq]
  simp only [List.all_eq_true]
  intro c hc
  simp only [List.mem_map] at hc
  obtain ⟨d, hd, rfl⟩ := hc
  have hlt : d < 36 :=
    midAuxD_mem_lt (L.length + R.length + 1) (L.map A2I) (R.map A2I)
      (all_a2i_lt hL) (all_a2i_lt hR) d hd
  exact (isKeyChar_iff_mem (I2A d)).mpr (i2a_mem d (by simpa using hlt))

theorem midpointFrom_digits {L R : List Char} (hL : L.all isKeyChar = true)
    (hR : R.all isKeyChar = true) :
    (midpointFrom L R).map A2I = midAuxD (L.length + R.length + 1) (L.map A2I) (R.map A2I) := by
  rw [midpointFrom_eq]
  exact map_a2i_i2a _ (midAuxD_mem_lt _ _ _ (all_a2i_lt hL) (all_a2i_lt hR))

theorem midpointFrom_ne_nil (L R : List Char) : midpointFrom L R ≠ [] := by
  rw [midpointFrom_eq]
  have := midAuxD_ne_nil (L.length + R.length + 1) (L.map A2I) (R.map A2I) (map_len_fuel L R)
  intro h
  exact this (by simpa using h)

theorem midpointFrom_length (L R : List Char) :
    (midpointFrom L R).length ≤ max L.length R.length + 1 := by
  rw [midpointFrom_eq]
  have := midAuxD_length (L.length + R.length + 1) (L.map A2I) (R.map A2I) (map_len_fuel L R)
  simpa using this

theorem midpointFrom_lower {L R : List Char} (hL : L.all isKeyChar = true)
    (hR : R.all isKeyChar = true) : strLt L (midpointFrom L R) = true := by
  rw [strLt_eq_keyLt L _ hL (midpointFrom_all_alpha hL hR), midpointFrom_digits hL hR]
  exact midAuxD_lower _ _ _ (map_len_fuel L R)

theorem midpointFrom_upper {L R t : List Char} (hL : L.all isKeyChar = true)
    (hR : R.all isKeyChar = true) (hxs : t.all isKeyChar = true)
    (hlt : strLt L R = true) (hpad : zeroPadFrom L R = false) :
    strLt (midpointFrom L R ++ t) R = true := by
  have hall : (midpointFrom L R ++ t).all isKeyChar = true := by
    simp only [List.all_append, Bool.and_eq_true]
    exact ⟨midpointFrom_all_alpha hL hR, hxs⟩
  rw [strLt_eq_keyLt _ R hall hR]
  rw [List.map_append, midpointFrom_digits hL hR]
  apply midAuxD_upper _ _ _ _ (map_len_fuel L R)
  · rw [← strLt_eq_keyLt L R hL hR]; exact hlt
  · rw [← zeroPadFrom_eq_badPad L R hL hR]; exact hpad

theorem midpointFrom_has_nonzero {L R : List Char} (hL : L.all isKeyChar = true)
    (hR : R.all isKeyChar = true) :
    (midpointFrom L R).any (fun c => c != '0') = true := by
  rw [midpointFrom_eq]
  obtain ⟨d, hd, hd1⟩ :=
    midAuxD_has_pos (L.length + R.length + 1) (L.map A2I) (R.map A2I) (map_len_fuel L R)
  have hlt : d < 36 :=
    midAuxD_mem_lt (L.length + R.length + 1) (L.map A2I) (R.map A2I)
      (all_a2i_lt hL) (all_a2i_lt hR) d hd
  simp only [List.any_eq_true]
  refine ⟨I2A d, List.mem_map_of_mem I2A hd, ?_⟩
  simpa using i2a_ne_zero d (by simpa using hlt) hd1

theorem strLt_irrefl : ∀ s : List Char, strLt s s = false := by
  intro s
  induction s with
  | nil => rfl
  | cons a as ih => simp [strLt, ih]

theorem strLt_trans : ∀ a b c : List Char, strLt a b = true → strLt b c = true →
    strLt a c = true := by
  intro a
  induction a with
  | nil =>
    intro b c _ hbc
    rcases c with _ | ⟨z, cs⟩
    · cases b <;> simp [strLt] at hbc
    · simp [strLt]
  | cons x as ih =>
    intro b c hab hbc
    rcases b with _ | ⟨y, bs⟩
    · simp [strLt] at hab
    · rcases c with _ | ⟨z, cs⟩
      · simp [strLt] at hbc
      · simp only [strLt, Bool.or_eq_true, decide_eq_true_eq, Bool.and_eq_true,
          beq_iff_eq] at hab hbc ⊢
        rcases hab with hab | ⟨hab, habt⟩ <;> rcases hbc with hbc | ⟨hbc, hbct⟩
        · exact Or.inl (lt_trans hab hbc)
        · subst hbc; exact Or.inl hab
        · subst hab; exact Or.inl hbc
        · subst hab; subst hbc; exact Or.inr ⟨rfl, ih bs cs habt hbct⟩

theorem strLt_append_right : ∀ a b xs : List Char, strLt a b = true →
    strLt a (b ++ xs) = true := by
  intro a
  induction a with
  | nil =>
    intro b xs h
    rcases b with _ | ⟨c, cs⟩
    · simp [strLt] at h
    · simp [strLt]
  | cons x as ih =>
    intro b xs h
    rcases b with _ | ⟨c, cs⟩
    · simp [strLt] at h
    · simp only [strLt, Bool.or_eq_true, decide_eq_true_eq, Bool.and_eq_true,
        beq_iff_eq] at h
      rcases h with h | ⟨h, htail⟩
      · simp [strLt, h]
      · subst h
        simp [strLt, ih cs xs htail]

theorem any_ne_zero_iff : ∀ s : List Char,
    (s.any fun c => c != '0') = !(s.all fun c => c == '0') := by
  intro s
  induction s with
  | nil => rfl
  | cons c cs ih =>
    simp only [List.any_cons, List.all_cons, Bool.not_and, bne] at ih ⊢
    rw [ih]

theorem midAux_congr_char (f g : Nat) (L R : List Char)
    (hf : L.length + R.length < f) (hg : L.length + R.length < g) :
    midAux f L R = midAux g L R := by
  rw [midAux_eq_digits, midAux_eq_digits,
    midAuxD_congr f g _ _ (by simpa using hf) (by simpa using hg)]

/-- C10 (confirmed): the midpoint scan terminates on every pair of finite
inputs over the alphabet, including precondition-violating pairs such as
left = right: running the loop with any fuel beyond the combined input length
gives one fixed answer (the loop has returned by then, because past the end of
both inputs the bounds are 0 and 35 and the guard 0 + 1 < 35 returns), and the
result is a non-empty string over the alphabet of length at most
max (length left) (length right) + 1. -/
theorem c10_theorem :
    (∀ (f : Nat) (L R : List Char), L.length + R.length < f →
      midAux f L R = midpointFrom L R) ∧
    (∀ L R : List Char, L.all isKeyChar = true → R.all isKeyChar = true →
      midpointFrom L R ≠ [] ∧ (midpointFrom L R).all isKeyChar = true ∧
      (midpointFrom L R).length ≤ max L.length R.length + 1) := by
  constructor
  · intro f L R hf
    exact midAux_congr_char f (L.length + R.length + 1) L R hf (by omega)
  · intro L R hL hR
    exact ⟨midpointFrom_ne_nil L R, midpointFrom_all_alpha hL hR, midpointFrom_length L R⟩

/-- Witness for C10 at the precondition-violating input left = right = "a"
(and at "z"/"0" with fuel 9). -/
theorem c10_witness :
    midAux 9 ['z'] ['0'] = midpointFrom ['z'] ['0'] ∧
    (midpointFrom ['a'] ['a'] ≠ [] ∧ (midpointFrom ['a'] ['a']).all isKeyChar = true ∧
      (midpointFrom ['a'] ['a']).length ≤ max ['a'].length ['a'].length + 1) := by
  exact ⟨c10_theorem.1 9 ['z'] ['0'] (by decide),
    c10_theorem.2 ['a'] ['a'] (by decide) (by decide)⟩

/-- C1 (corrected): when both bounds are given with left < right and right is
not left followed by a run of the minimal symbol 0 (and likewise when a bound
is absent, with the absent left read as the empty string), the produced key
lies strictly between the present bounds in lexicographic string order.  The
unamended claim fails when right = left ++ (run of 0s): see the
counterexample. -/
theorem c1_theorem :
    ∀ (left right : Option (List Char)),
      (∀ L, left = some L → isKey L = true) →
      (∀ R, right = some R → isKey R = true) →
      (right ≠ none → strLt (left.getD []) (right.getD []) = true) →
      zeroPadFrom (left.getD []) (right.getD []) = false →
      (∀ L, left = some L → strLt L (lexo_midpoint left right) = true) ∧
      (∀ R, right = some R → strLt (lexo_midpoint left right) R = true) := by
  intro left right hKL hKR hlt hpad
  have hallL : (left.getD []).all isKeyChar = true := by
    rcases left with _ | L
    · simp
    · have := hKL L rfl
      simp only [isKey, Bool.and_eq_true] at this
      simpa using this.2
  have hallR : (right.getD []).all isKeyChar = true := by
    rcases right with _ | R
    · simp
    · have := hKR R rfl
      simp only [isKey, Bool.and_eq_true] at this
      simpa using this.2
  constructor
  · intro L hL
    have : left.getD [] = L := by rw [hL]; rfl
    rw [lexo_midpoint, ← this]
    exact midpointFrom_lower hallL hallR
  · intro R hR
    have hgR : right.getD [] = R := by rw [hR]; rfl
    have hne : right ≠ none := by rw [hR]; simp
    have := midpointFrom_upper (L := left.getD []) (R := right.getD []) (t := [])
      hallL hallR (by simp) (hlt hne) hpad
    rw [lexo_midpoint, hgR]
    simpa [hgR] using this

/-- Witness for C1 at left = "a", right = "c": the midpoint "b" is strictly
between them. -/
theorem c1_witness :
    strLt ['a'] (lexo_midpoint (some ['a']) (some ['c'])) = true ∧
    strLt (lexo_midpoint (some ['a']) (some ['c'])) ['c'] = true := by
  have h := c1_theorem (some ['a']) (some ['c'])
    (by intro L hL; injection hL with h2; subst h2; decide)
    (by intro R hR; injection hR with h2; subst h2; decide)
    (by intro h; decide)
    (by decide)
  exact ⟨h.1 ['a'] rfl, h.2 ['c'] rfl⟩

/-- Counterexample to C1 as stated: "a" and "a0" are keys over the alphabet
with "a" < "a0", yet midpoint("a", "a0") = "a0h", which is not below the right
bound "a0". -/
theorem c1_counterexample :
    isKey ['a'] = true ∧ isKey ['a', '0'] = true ∧
    strLt ['a'] ['a', '0'] = true ∧
    strLt (lexo_midpoint (some ['a']) (some ['a', '0'])) ['a', '0'] = false := by decide

theorem front_insert_step {s : List Char} (hall : s.all isKeyChar = true)
    (hnz : (s.any fun c => c != '0') = true) :
    strLt (lexo_midpoint none (some s)) s = true ∧
    (lexo_midpoint none (some s)).all isKeyChar = true ∧
    ((lexo_midpoint none (some s)).any fun c => c != '0') = true := by
  have hne : s ≠ [] := by
    intro h; subst h; simp at hnz
  have hlt : strLt [] s = true := by
    rcases s with _ | ⟨c, cs⟩
    · exact absurd rfl hne
    · simp [strLt]
  have hpad : zeroPadFrom [] s = false := by
    rcases s with _ | ⟨c, cs⟩
    · exact absurd rfl hne
    · rw [any_ne_zero_iff] at hnz
      have hfalse : ((c :: cs).all fun c => c == '0') = false := by
        rcases hX : (c :: cs).all fun c => c == '0'
        · rfl
        · rw [hX] at hnz; simp at hnz
      rw [List.all_cons] at hfalse
      exact hfalse
  have hmid : lexo_midpoint none (some s) = midpointFrom [] s := rfl
  refine ⟨?_, ?_, ?_⟩
  · rw [hmid]
    have := midpointFrom_upper (L := []) (R := s) (t := [])
      (by simp) hall (by simp) hlt hpad
    simpa using this
  · rw [hmid]
    exact midpointFrom_all_alpha (by simp) hall
  · rw [hmid]
    exact midpointFrom_has_nonzero (by simp) hall

/-- C9 (corrected): for every key k containing at least one symbol other than
0, midpoint(None, k) is strictly below k, and since every midpoint output
contains a symbol other than 0 (its final symbol has value at least 1), the
sequence of repeated front insertions is strictly decreasing and never
produces the same key twice.  The unamended claim fails on all-zero keys such
as k = "0": see the counterexample. -/
theorem c9_theorem :
    ∀ k : List Char, isKey k = true → (k.any fun c => c != '0') = true →
      (∀ n, strLt (firstSeq k (n + 1)) (firstSeq k n) = true) ∧
      (∀ m n, m < n → firstSeq k n ≠ firstSeq k m) := by
  intro k hk hnz
  have hall0 : k.all isKeyChar = true := by
    simp only [isKey, Bool.and_eq_true] at hk
    exact hk.2
  have hinv : ∀ n, (firstSeq k n).all isKeyChar = true ∧
      ((firstSeq k n).any fun c => c != '0') = true := by
    intro n
    induction n with
    | zero => exact ⟨hall0, hnz⟩
    | succ n ih =>
      obtain ⟨h1, h2⟩ := ih
      have := front_insert_step h1 h2
      exact ⟨this.2.1, this.2.2⟩
  have hdec : ∀ n, strLt (firstSeq k (n + 1)) (firstSeq k n) = true := by
    intro n
    obtain ⟨h1, h2⟩ := hinv n
    exact (front_insert_step h1 h2).1
  have hchain : ∀ n m, m < n → strLt (firstSeq k n) (firstSeq k m) = true := by
    intro n
    induction n with
    | zero => intro m h; omega
    | succ n ih =>
      intro m h
      rcases Nat.lt_or_ge m n with h2 | h2
      · exact strLt_trans _ _ _ (hdec n) (ih m h2)
      · have hm : m = n := by omega
        subst hm
        exact hdec m
  refine ⟨hdec, ?_⟩
  intro m n h heq
  have := hchain n m h
  rw [heq] at this
  rw [strLt_irrefl] at this
  exact absurd this (by simp)

/-- Witness for C9 at k = "z": the first front insertion yields a strictly
smaller key, and two iterations never revisit the start. -/
theorem c9_witness :
    strLt (firstSeq ['z'] 1) (firstSeq ['z'] 0) = true ∧
    firstSeq ['z'] 2 ≠ firstSeq ['z'] 0 := by
  have h := c9_theorem ['z'] (by decide) (by decide)
  exact ⟨h.1 0, h.2 0 2 (by decide)⟩

/-- Counterexample to C9 as stated: k = "0" is a valid key, but
midpoint(None, "0") = "0h", which sorts after "0", so the front-insertion
sequence is not strictly decreasing at its first step. -/
theorem c9_counterexample :
    isKey ['0'] = true ∧ strLt (firstSeq ['0'] 1) (firstSeq ['0'] 0) = false := by decide

/-- C2 (confirmed): every modeled mutating operation on a board, column or
card that is given an expected-version token (If-Match header or
expectedVersion field) differing from the stored version of the entity fails with
PreconditionFailed and returns the state unchanged: no field write, no
version bump.  Covered operations: update_card, delete_card, move_card of the
FastAPI variant and PATCH/DELETE board, column, card plus card move of the
stdlib variant (role and scope checks, which run first, are assumed passed). -/
theorem c2_theorem :
    (∀ (st : AState) (now : Nat) (uid bid colId cardId : String)
        (titleP descP : Option String) (tok : String) (b : ABoard) (cd : ACard),
      findBoardA st bid = some b →
      ensureRole ["admin", "writer"] (appGetRole st b uid) = true →
      findCardA st cardId = some cd →
      cd.boardId = b.id → cd.columnId = colId →
      stripQuotes tok ≠ toString cd.version →
      appUpdateCard st now uid bid colId cardId titleP descP (some tok) =
        (st, some ApiError.preconditionFailed)) ∧
    (∀ (st : AState) (uid bid colId cardId : String) (tok : String)
        (b : ABoard) (cd : ACard),
      findBoardA st bid = some b →
      ensureRole ["admin", "writer"] (appGetRole st b uid) = true →
      findCardA st cardId = some cd →
      cd.boardId = b.id → cd.columnId = colId →
      stripQuotes tok ≠ toString cd.version →
      appDeleteCard st uid bid colId cardId (some tok) =
        (st, some ApiError.preconditionFailed)) ∧
    (∀ (st : AState) (now : Nat) (uid bid cardId : String)
        (toColP beforeP afterP : Option String) (v : Nat) (conflict : Bool)
        (b : ABoard) (cd : ACard) (toCol : AColumn),
      findBoardA st bid = some b →
      ensureRole ["admin", "writer"] (appGetRole st b uid) = true →
      findCardA st cardId = some cd →
      cd.boardId = b.id →
      findColumnA st (pyOrStr toColP cd.columnId) = some toCol →
      toCol.boardId = b.id →
      v ≠ cd.version →
      appMoveCard st now uid bid cardId toColP beforeP afterP (some v) conflict =
        (st, some ApiError.preconditionFailed)) ∧
    (∀ (st : SState) (now : Nat) (uid bid : String) (nameP : Option String)
        (descP : Option (Option String)) (tok : String) (b : SBoard),
      srvRequireMember (srvRoleForUser st bid uid) "writer" = true →
      findBoardS st bid = some b →
      stripQuotes tok ≠ toString b.version →
      srvPatchBoard st now uid bid nameP descP (some tok) =
        (st, some ApiError.preconditionFailed)) ∧
    (∀ (st : SState) (now : Nat) (uid bid colId : String) (nameP : Option String)
        (tok : String) (col : SColumn),
      srvRequireMember (srvRoleForUser st bid uid) "writer" = true →
      findColumnScopedS st colId bid = some col →
      stripQuotes tok ≠ toString col.version →
      srvPatchColumn st now uid bid colId nameP (some tok) =
        (st, some ApiError.preconditionFailed)) ∧
    (∀ (st : SState) (now : Nat) (uid bid colId cardId : String)
        (titleP : Option String) (descP : Option (Option String)) (tok : String)
        (card : SCard),
      srvRequireMember (srvRoleForUser st bid uid) "writer" = true →
      findCardScopedS st cardId bid colId = some card →
      stripQuotes tok ≠ toString card.version →
      srvPatchCard st now uid bid colId cardId titleP descP (some tok) =
        (st, some ApiError.preconditionFailed)) ∧
    (∀ (st : SState) (uid bid : String) (tok : String) (b : SBoard),
      srvRequireMember (srvRoleForUser st bid uid) "admin" = true →
      findBoardS st bid = some b →
      stripQuotes tok ≠ toString b.version →
      srvDeleteBoard st uid bid (some tok) = (st, some ApiError.preconditionFailed)) ∧
    (∀ (st : SState) (uid bid colId : String) (tok : String) (col : SColumn),
      srvRequireMember (srvRoleForUser st bid uid) "writer" = true →
      findColumnScopedS st colId bid = some col →
      stripQuotes tok ≠ toString col.version →
      srvDeleteColumn st uid bid colId (some tok) =
        (st, some ApiError.preconditionFailed)) ∧
    (∀ (st : SState) (uid bid colId cardId : String) (tok : String) (c : SCard),
      srvRequireMember (srvRoleForUser st bid uid) "writer" = true →
      findCardScopedS st cardId bid colId = some c →
      stripQuotes tok ≠ toString c.version →
      srvDeleteCard st uid bid colId cardId (some tok) =
        (st, some ApiError.preconditionFailed)) ∧
    (∀ (st : SState) (now : Nat) (uid bid cardId : String)
        (toColP beforeP afterP : Option String) (v : Nat) (card : SCard)
        (col : SColumn),
      srvRequireMember (srvRoleForUser st bid uid) "writer" = true →
      findCardS st cardId = some card →
      card.boardId = bid →
      findColumnScopedS st (pyOrStr toColP card.columnId) bid = some col →
      v ≠ card.version →
      srvMoveCard st now uid bid cardId toColP beforeP afterP (some v) =
        (st, some ApiError.preconditionFailed)) := by
  refine ⟨?_, ?_, ?_, ?_, ?_, ?_, ?_, ?_, ?_, ?_⟩
  · intro st now uid bid colId cardId titleP descP tok b cd hb hrole hcd hbid hcol hne
    simp [appUpdateCard, hb, hrole, hcd, hbid, hcol, bne_iff_ne, hne]
  · intro st uid bid colId cardId tok b cd hb hrole hcd hbid hcol hne
    simp [appDeleteCard, hb, hrole, hcd, hbid, hcol, bne_iff_ne, hne]
  · intro st now uid bid cardId toColP beforeP afterP v conflict b cd toCol hb hrole
      hcd hbid htc htcb hne
    simp [appMoveCard, hb, hrole, hcd, hbid, htc, htcb, bne_iff_ne, hne]
  · intro st now uid bid nameP descP tok b hrole hb hne
    simp [srvPatchBoard, hrole, hb, bne_iff_ne, hne]
  · intro st now uid bid colId nameP tok col hrole hcol hne
    simp [srvPatchColumn, hrole, hcol, bne_iff_ne, hne]
  · intro st now uid bid colId cardId titleP descP tok card hrole hcard hne
    simp [srvPatchCard, hrole, hcard, bne_iff_ne, hne]
  · intro st uid bid tok b hrole hb hne
    simp [srvDeleteBoard, hrole, hb, bne_iff_ne, hne]
  · intro st uid bid colId tok col hrole hcol hne
    simp [srvDeleteColumn, hrole, hcol, bne_iff_ne, hne]
  · intro st uid bid colId cardId tok c hrole hc hne
    simp [srvDeleteCard, hrole, hc, bne_iff_ne, hne]
  · intro st now uid bid cardId toColP beforeP afterP v card col hrole hcard hbid
      hcol hne
    simp [srvMoveCard, hrole, hcard, hbid, hcol, hne]

/-- Witness for C2: each covered operation, run on a concrete board state with
a stale version token, answers PreconditionFailed and leaves the state as it
was. -/
theorem c2_witness :
    appUpdateCard stA 5 "alice" "b1" "c1" "k1" none none (some "9") =
      (stA, some ApiError.preconditionFailed) ∧
    appDeleteCard stA "alice" "b1" "c1" "k1" (some "9") =
      (stA, some ApiError.preconditionFailed) ∧
    appMoveCard stA 5 "alice" "b1" "k1" none none none (some 7) false =
      (stA, some ApiError.preconditionFailed) ∧
    srvPatchBoard stS 5 "bob" "B1" none none (some "9") =
      (stS, some ApiError.preconditionFailed) ∧
    srvPatchColumn stS 5 "bob" "B1" "C1" none (some "9") =
      (stS, some ApiError.preconditionFailed) ∧
    srvPatchCard stS 5 "bob" "B1" "C1" "K1" none none (some "9") =
      (stS, some ApiError.preconditionFailed) ∧
    srvDeleteBoard stS "dave" "B1" (some "9") =
      (stS, some ApiError.preconditionFailed) ∧
    srvDeleteColumn stS "bob" "B1" "C1" (some "9") =
      (stS, some ApiError.preconditionFailed) ∧
    srvDeleteCard stS "bob" "B1" "C1" "K1" (some "9") =
      (stS, some ApiError.preconditionFailed) ∧
    srvMoveCard stS 5 "bob" "B1" "K1" none none none (some 7) =
      (stS, some ApiError.preconditionFailed) := by
  obtain ⟨h1, h2, h3, h4, h5, h6, h7, h8, h9, h10⟩ := c2_theorem
  refine ⟨?_, ?_, ?_, ?_, ?_, ?_, ?_, ?_, ?_, ?_⟩
  · exact h1 stA 5 "alice" "b1" "c1" "k1" none none "9" boardA1 cardK1
      (by decide) (by decide) (by decide) (by decide) (by decide) (by decide)
  · exact h2 stA "alice" "b1" "c1" "k1" "9" boardA1 cardK1
      (by decide) (by decide) (by decide) (by decide) (by decide) (by decide)
  · exact h3 stA 5 "alice" "b1" "k1" none none none 7 false boardA1 cardK1 colA1
      (by decide) (by decide) (by decide) (by decide) (by decide) (by decide) (by decide)
  · exact h4 stS 5 "bob" "B1" none none "9" boardS1
      (by decide) (by decide) (by decide)
  · exact h5 stS 5 "bob" "B1" "C1" none "9" colS1
      (by decide) (by decide) (by decide)
  · exact h6 stS 5 "bob" "B1" "C1" "K1" none none "9" cardS1
      (by decide) (by decide) (by decide)
  · exact h7 stS "dave" "B1" "9" boardS1 (by decide) (by decide) (by decide)
  · exact h8 stS "bob" "B1" "C1" "9" colS1 (by decide) (by decide) (by decide)
  · exact h9 stS "bob" "B1" "C1" "K1" "9" cardS1 (by decide) (by decide) (by decide)
  · exact h10 stS 5 "bob" "B1" "K1" none none none 7 cardS1 colS1
      (by decide) (by decide) (by decide) (by decide) (by decide)

theorem find?_map_ite {α : Type} (q : α → Bool) (g : α → α) :
    ∀ (l : List α) (x : α), l.find? q = some x → q (g x) = true →
    (l.map (fun c => if q c then g c else c)).find? q = some (g x) := by
  intro l
  induction l with
  | nil => intro x hx; simp at hx
  | cons a t ih =>
    intro x hx hgx
    cases hqa : q a with
    | true =>
      rw [List.find?_cons_of_pos _ hqa] at hx
      injection hx with hx
      subst hx
      simp only [List.map_cons, hqa, if_true]
      rw [List.find?_cons_of_pos _ hgx]
    | false =>
      rw [List.find?_cons_of_neg _ (by simp [hqa])] at hx
      simp only [List.map_cons, hqa, if_false]
      rw [List.find?_cons_of_neg _ (by simp [hqa])]
      exact ih x hx hgx

/-- C6 (confirmed): every modeled successful mutating operation on a card or
column bumps the version of exactly that entity by exactly one and stamps
updatedAt with the current tick in the same step.  This includes the
card-move collision-retry path of the FastAPI variant, where the rollback
discards the first pending bump and the retry re-applies a single increment
from the stored version; the onupdate hook refreshes updated_at there. -/
theorem c6_theorem :
    (∀ (st : AState) (now : Nat) (uid bid colId cardId : String)
        (titleP descP ifMatch : Option String) (b : ABoard) (cd : ACard),
      findBoardA st bid = some b →
      ensureRole ["admin", "writer"] (appGetRole st b uid) = true →
      findCardA st cardId = some cd →
      cd.boardId = b.id → cd.columnId = colId →
      (match ifMatch with
        | some tok => stripQuotes tok != toString cd.version
        | none => false) = false →
      (match titleP with
        | some t => pyStrip t == ""
        | none => false) = false →
      (appUpdateCard st now uid bid colId cardId titleP descP ifMatch).2 = none ∧
      ∃ cd2, findCardA (appUpdateCard st now uid bid colId cardId titleP descP ifMatch).1
          cardId = some cd2 ∧ cd2.version = cd.version + 1 ∧ cd2.updatedAt = now) ∧
    (∀ (st : AState) (now : Nat) (uid bid cardId : String)
        (toColP beforeP afterP : Option String) (expectedVersion : Option Nat)
        (conflict : Bool) (b : ABoard) (cd : ACard) (toCol : AColumn)
        (left right : Option (List Char)),
      findBoardA st bid = some b →
      ensureRole ["admin", "writer"] (appGetRole st b uid) = true →
      findCardA st cardId = some cd →
      cd.boardId = b.id →
      findColumnA st (pyOrStr toColP cd.columnId) = some toCol →
      toCol.boardId = b.id →
      (match expectedVersion with
        | some v => !(v == cd.version)
        | none => false) = false →
      appGetCardAnchors st b.id (pyOrStr toColP cd.columnId) beforeP afterP =
        Except.ok (left, right) →
      (appMoveCard st now uid bid cardId toColP beforeP afterP expectedVersion
          conflict).2 = none ∧
      ∃ cd2, findCardA (appMoveCard st now uid bid cardId toColP beforeP afterP
          expectedVersion conflict).1 cardId = some cd2 ∧
        cd2.version = cd.version + 1 ∧ cd2.updatedAt = now) ∧
    (∀ (st : SState) (now : Nat) (uid bid colId cardId : String)
        (titleP : Option String) (descP : Option (Option String))
        (ifMatch : Option String) (card : SCard),
      srvRequireMember (srvRoleForUser st bid uid) "writer" = true →
      findCardScopedS st cardId bid colId = some card →
      List.find? (fun c : SCard => c.id == cardId) st.cards = some card →
      (match ifMatch with
        | none => true
        | some tok => stripQuotes tok != toString card.version) = false →
      ((pyStrip (pyOrStr titleP card.title)).length == 0 ||
        decide (200 < (pyStrip (pyOrStr titleP card.title)).length)) = false →
      (match (match descP with
          | some d => d
          | none => card.description) with
        | some d => decide (8000 < d.length)
        | none => false) = false →
      (srvPatchCard st now uid bid colId cardId titleP descP ifMatch).2 = none ∧
      ∃ card2, findCardS (srvPatchCard st now uid bid colId cardId titleP descP
          ifMatch).1 cardId = some card2 ∧
        card2.version = card.version + 1 ∧ card2.updatedAt = now) ∧
    (∀ (st : SState) (now : Nat) (uid bid cardId : String)
        (toColP beforeP afterP : Option String) (card : SCard) (col : SColumn),
      srvRequireMember (srvRoleForUser st bid uid) "writer" = true →
      findCardS st cardId = some card →
      card.boardId = bid →
      findColumnScopedS st (pyOrStr toColP card.columnId) bid = some col →
      (srvMoveCard st now uid bid cardId toColP beforeP afterP
          (some card.version)).2 = none ∧
      ∃ card2, findCardS (srvMoveCard st now uid bid cardId toColP beforeP afterP
          (some card.version)).1 cardId = some card2 ∧
        card2.version = card.version + 1 ∧ card2.updatedAt = now) ∧
    (∀ (st : SState) (now : Nat) (uid bid colId : String)
        (beforeP afterP : Option String) (col : SColumn),
      srvRequireMember (srvRoleForUser st bid uid) "writer" = true →
      findColumnScopedS st colId bid = some col →
      List.find? (fun c : SColumn => c.id == colId) st.columns = some col →
      (srvMoveColumn st now uid bid colId beforeP afterP).2 = none ∧
      ∃ col2, List.find? (fun c : SColumn => c.id == colId)
          (srvMoveColumn st now uid bid colId beforeP afterP).1.columns = some col2 ∧
        col2.version = col.version + 1 ∧ col2.updatedAt = now) := by
  refine ⟨?_, ?_, ?_, ?_, ?_⟩
  · intro st now uid bid colId cardId titleP descP ifMatch b cd hb hrole hcd hbid hcol
      hifm htitle
    have hcd2 : List.find? (fun c : ACard => c.id == cardId) st.cards = some cd := hcd
    have hq : (cd.id == cardId) = true := by simpa using List.find?_some hcd2
    constructor
    · simp [appUpdateCard, hb, hrole, hcd, hbid, hcol, hifm, htitle]
    · simp only [appUpdateCard, findCardA, hcd2, hb, hrole, hbid, hcol, hifm, htitle]
      simp only [Bool.not_true, bne_self_eq_false, Bool.or_self, Bool.false_eq_true,
        if_false, if_true]
      exact ⟨_, find?_map_ite _ _ st.cards cd hcd2 hq, rfl, rfl⟩
  · intro st now uid bid cardId toColP beforeP afterP expectedVersion conflict b cd
      toCol left right hb hrole hcd hbid htc htcb hexp hanch
    have hcd2 : List.find? (fun c : ACard => c.id == cardId) st.cards = some cd := hcd
    have hq : (cd.id == cardId) = true := by simpa using List.find?_some hcd2
    cases conflict with
    | false =>
      constructor
      · simp [appMoveCard, hb, hrole, hcd, hbid, htc, htcb, hexp, hanch]
      · simp only [appMoveCard, findCardA, hcd2, hb, hrole, hbid, htc, htcb, hexp, hanch]
        simp only [Bool.not_true, bne_self_eq_false, Bool.or_self, Bool.false_eq_true,
          Bool.not_false, if_false, if_true]
        exact ⟨_, find?_map_ite _ _ st.cards cd hcd2 hq, rfl, rfl⟩
    | true =>
      constructor
      · simp [appMoveCard, hb, hrole, hcd, hbid, htc, htcb, hexp, hanch]
      · simp only [appMoveCard, findCardA, hcd2, hb, hrole, hbid, htc, htcb, hexp, hanch]
        simp only [Bool.not_true, bne_self_eq_false, Bool.or_self, Bool.false_eq_true,
          Bool.not_false, if_false, if_true]
        exact ⟨_, find?_map_ite _ _ st.cards cd hcd2 hq, rfl, rfl⟩
  · intro st now uid bid colId cardId titleP descP ifMatch card hrole hscoped hcard2
      hifm hval1 hval2
    have hq : (card.id == cardId) = true := by simpa using List.find?_some hcard2
    constructor
    · simp [srvPatchCard, hrole, hscoped, hifm, hval1, hval2]
    · simp only [srvPatchCard, findCardS, hrole, hscoped, hifm, hval1, hval2]
      simp only [Bool.not_true, Bool.false_eq_true, if_false, if_true]
      exact ⟨_, find?_map_ite _ _ st.cards card hcard2 hq, rfl, rfl⟩
  · intro st now uid bid cardId toColP beforeP afterP card col hrole hcard hbid hcol
    have hcard2 : List.find? (fun c : SCard => c.id == cardId) st.cards = some card := hcard
    have hq : (card.id == cardId) = true := by simpa using List.find?_some hcard2
    constructor
    · simp [srvMoveCard, hrole, hcard, hbid, hcol]
    · simp only [srvMoveCard, findCardS, hcard2, hrole, hbid, hcol]
      simp only [Bool.not_true, bne_self_eq_false, Bool.false_eq_true, beq_self_eq_true,
        Bool.not_false, if_false, if_true]
      exact ⟨_, find?_map_ite _ _ st.cards card hcard2 hq, rfl, rfl⟩
  · intro st now uid bid colId beforeP afterP col hrole hcol hcol2
    have hq : (col.id == colId) = true := by simpa using List.find?_some hcol2
    constructor
    · simp [srvMoveColumn, hrole, hcol]
    · simp only [srvMoveColumn, hrole, hcol]
      simp only [Bool.not_true, Bool.false_eq_true, if_false, if_true]
      exact ⟨_, find?_map_ite _ _ st.columns col hcol2 hq, rfl, rfl⟩

/-- Witness for C6: concrete successful card update, card move through the
collision-retry path, and stdlib patch and moves, each bumping the version by
exactly one and stamping updatedAt. -/
theorem c6_witness :
    ((appUpdateCard stA 5 "bob" "b1" "c1" "k1" (some " New ") none (some "3")).2 = none ∧
      ∃ cd2, findCardA (appUpdateCard stA 5 "bob" "b1" "c1" "k1" (some " New ") none
          (some "3")).1 "k1" = some cd2 ∧ cd2.version = cardK1.version + 1 ∧
        cd2.updatedAt = 5) ∧
    ((appMoveCard stA 5 "bob" "b1" "k1" (some "c2") none none (some 3) true).2 = none ∧
      ∃ cd2, findCardA (appMoveCard stA 5 "bob" "b1" "k1" (some "c2") none none
          (some 3) true).1 "k1" = some cd2 ∧ cd2.version = cardK1.version + 1 ∧
        cd2.updatedAt = 5) ∧
    ((srvPatchCard stS 5 "bob" "B1" "C1" "K1" none none (some "3")).2 = none ∧
      ∃ card2, findCardS (srvPatchCard stS 5 "bob" "B1" "C1" "K1" none none
          (some "3")).1 "K1" = some card2 ∧ card2.version = cardS1.version + 1 ∧
        card2.updatedAt = 5) ∧
    ((srvMoveCard stS 5 "bob" "B1" "K1" (some "C2") none none (some cardS1.version)).2 =
        none ∧
      ∃ card2, findCardS (srvMoveCard stS 5 "bob" "B1" "K1" (some "C2") none none
          (some cardS1.version)).1 "K1" = some card2 ∧
        card2.version = cardS1.version + 1 ∧ card2.updatedAt = 5) ∧
    ((srvMoveColumn stS 5 "bob" "B1" "C1" none none).2 = none ∧
      ∃ col2, List.find? (fun c : SColumn => c.id == "C1")
          (srvMoveColumn stS 5 "bob" "B1" "C1" none none).1.columns = some col2 ∧
        col2.version = colS1.version + 1 ∧ col2.updatedAt = 5) := by
  obtain ⟨h1, h2, h3, h4, h5⟩ := c6_theorem
  refine ⟨?_, ?_, ?_, ?_, ?_⟩
  · exact h1 stA 5 "bob" "b1" "c1" "k1" (some " New ") none (some "3") boardA1 cardK1
      (by decide) (by decide) (by decide) (by decide) (by decide) (by decide) (by decide)
  · exact h2 stA 5 "bob" "b1" "k1" (some "c2") none none (some 3) true boardA1 cardK1
      colA2 none none (by decide) (by decide) (by decide) (by decide) (by decide)
      (by decide) (by decide) (by rfl)
  · exact h3 stS 5 "bob" "B1" "C1" "K1" none none (some "3") cardS1
      (by decide) (by decide) (by decide) (by decide) (by decide) (by decide)
  · exact h4 stS 5 "bob" "B1" "K1" (some "C2") none none cardS1 colS2
      (by decide) (by decide) (by decide) (by decide)
  · exact h5 stS 5 "bob" "B1" "C1" none none colS1 (by decide) (by decide) (by decide)

theorem resolveCardAnchor_error : ∀ (st : AState) (bid tocol : String)
    (a : Option String) (e : ApiError),
    resolveCardAnchor st bid tocol a = Except.error e → e = ApiError.invalidAnchor := by
  intro st bid tocol a e h
  simp only [resolveCardAnchor] at h
  repeat' split at h
  all_goals simp_all

theorem appGetCardAnchors_error : ∀ (st : AState) (bid tocol : String)
    (beforeP afterP : Option String) (e : ApiError),
    appGetCardAnchors st bid tocol beforeP afterP = Except.error e →
    e = ApiError.invalidAnchor := by
  intro st bid tocol beforeP afterP e h
  simp only [appGetCardAnchors] at h
  split at h
  · rename_i e2 heq
    injection h with h2
    subst h2
    exact resolveCardAnchor_error st bid tocol beforeP _ heq
  · split at h
    · rename_i right hright e2 herr
      injection h with h2
      subst h2
      exact resolveCardAnchor_error st bid tocol afterP _ herr
    · simp at h

theorem resolveColumnAnchor_error : ∀ (st : AState) (bid : String)
    (a : Option String) (e : ApiError),
    resolveColumnAnchor st bid a = Except.error e → e = ApiError.invalidAnchor := by
  intro st bid a e h
  simp only [resolveColumnAnchor] at h
  repeat' split at h
  all_goals simp_all

theorem appComputeColumnSortKey_error : ∀ (st : AState) (bid : String)
    (beforeP afterP : Option String) (e : ApiError),
    appComputeColumnSortKey st bid beforeP afterP = Except.error e →
    e = ApiError.invalidAnchor := by
  intro st bid beforeP afterP e h
  simp only [appComputeColumnSortKey] at h
  split at h
  · rename_i e2 heq
    injection h with h2
    subst h2
    exact resolveColumnAnchor_error st bid beforeP _ heq
  · split at h
    · rename_i right hright e2 herr
      injection h with h2
      subst h2
      exact resolveColumnAnchor_error st bid afterP _ herr
    · simp at h

/-- C8 (corrected): in the FastAPI variant a card or column move without an
expectedVersion token never fails with PreconditionFailed and, with valid
anchors and sufficient role, is applied; the stdlib column move likewise has
no version token.  The stdlib card move however requires expectedVersion and
rejects its absence with PreconditionFailed, against the claim: see the
counterexample. -/
theorem c8_theorem :
    (∀ (st : AState) (now : Nat) (uid bid cardId : String)
        (toColP beforeP afterP : Option String) (conflict : Bool),
      (appMoveCard st now uid bid cardId toColP beforeP afterP none conflict).2 ≠
        some ApiError.preconditionFailed) ∧
    (∀ (st : AState) (now : Nat) (uid bid colId : String)
        (beforeP afterP : Option String) (conflict : Bool),
      (appMoveColumn st now uid bid colId beforeP afterP conflict).2 ≠
        some ApiError.preconditionFailed) ∧
    (∀ (st : SState) (now : Nat) (uid bid colId : String)
        (beforeP afterP : Option String),
      (srvMoveColumn st now uid bid colId beforeP afterP).2 ≠
        some ApiError.preconditionFailed) ∧
    ((appMoveCard stA 5 "bob" "b1" "k1" (some "c2") none none none false).2 = none ∧
      (findCardA (appMoveCard stA 5 "bob" "b1" "k1" (some "c2") none none none
          false).1 "k1").map (fun c => c.columnId) = some "c2") := by
  refine ⟨?_, ?_, ?_, ?_⟩
  · intro st now uid bid cardId toColP beforeP afterP conflict
    simp only [appMoveCard]
    repeat' split
    all_goals intro hcon
    all_goals try simp_all
    rename_i heq
    have h2 := appGetCardAnchors_error _ _ _ _ _ _ heq
    simp at h2
  · intro st now uid bid colId beforeP afterP conflict
    simp only [appMoveColumn]
    repeat' split
    all_goals intro hcon
    all_goals try simp_all
    rename_i heq
    have h2 := appComputeColumnSortKey_error _ _ _ _ _ heq
    simp at h2
  · intro st now uid bid colId beforeP afterP
    simp only [srvMoveColumn]
    repeat' split
    all_goals simp
  · constructor
    · decide
    · decide

/-- Counterexample to C8 as stated: in the stdlib variant a card move with
valid anchors, a valid destination column and sufficient role, but no
expectedVersion, is rejected with PreconditionFailed and changes nothing. -/
theorem c8_counterexample :
    srvMoveCard stS 5 "bob" "B1" "K1" (some "C2") none none none =
      (stS, some ApiError.preconditionFailed) := by decide

/-- C7 (corrected): in the FastAPI variant a truthy beforeId/afterId that
names no entity, or an entity outside the target scope, makes anchor
resolution fail with the 422 invalid-anchor error, and create/move propagate
that error with the collection unchanged.  In the stdlib variant the claim
fails: an unresolvable anchor id is silently treated as an absent bound (see
the counterexample); the final conjunct states that silent-absence equality. -/
theorem c7_theorem :
    (∀ (st : AState) (bid x : String) (afterP : Option String),
      x ≠ "" → findColumnA st x = none →
      appComputeColumnSortKey st bid (some x) afterP =
        Except.error ApiError.invalidAnchor) ∧
    (∀ (st : AState) (bid x : String) (afterP : Option String) (c : AColumn),
      x ≠ "" → findColumnA st x = some c → c.boardId ≠ bid →
      appComputeColumnSortKey st bid (some x) afterP =
        Except.error ApiError.invalidAnchor) ∧
    (∀ (st : AState) (bid tocol x : String),
      x ≠ "" → findCardA st x = none →
      resolveCardAnchor st bid tocol (some x) = Except.error ApiError.invalidAnchor) ∧
    (∀ (st : AState) (bid tocol x : String) (c : ACard),
      x ≠ "" → findCardA st x = some c → (c.boardId ≠ bid ∨ c.columnId ≠ tocol) →
      resolveCardAnchor st bid tocol (some x) = Except.error ApiError.invalidAnchor) ∧
    (∀ (st : AState) (now : Nat) (newId uid bid : String) (nameP : String)
        (beforeP afterP : Option String) (b : ABoard) (e : ApiError),
      findBoardA st bid = some b →
      ensureRole ["admin", "writer"] (appGetRole st b uid) = true →
      pyStrip nameP ≠ "" →
      appComputeColumnSortKey st b.id beforeP afterP = Except.error e →
      appCreateColumn st now newId uid bid nameP beforeP afterP = (st, some e)) ∧
    (∀ (st : AState) (now : Nat) (uid bid colId : String)
        (beforeP afterP : Option String) (conflict : Bool) (b : ABoard)
        (c : AColumn) (e : ApiError),
      findBoardA st bid = some b →
      ensureRole ["admin", "writer"] (appGetRole st b uid) = true →
      findColumnA st colId = some c → c.boardId = b.id →
      appComputeColumnSortKey st b.id beforeP afterP = Except.error e →
      appMoveColumn st now uid bid colId beforeP afterP conflict = (st, some e)) ∧
    (∀ (st : SState) (now : Nat) (newId uid bid : String) (nameP : Option String)
        (x : String) (afterP : Option String),
      x ≠ "" → findColumnScopedS st x bid = none →
      srvCreateColumn st now newId uid bid nameP (some x) afterP =
        srvCreateColumn st now newId uid bid nameP none afterP) := by
  refine ⟨?_, ?_, ?_, ?_, ?_, ?_, ?_⟩
  · intro st bid x afterP hx hfind
    simp [appComputeColumnSortKey, resolveColumnAnchor, hx, hfind]
  · intro st bid x afterP c hx hfind hscope
    simp [appComputeColumnSortKey, resolveColumnAnchor, hx, hfind, bne_iff_ne, hscope]
  · intro st bid tocol x hx hfind
    simp [resolveCardAnchor, hx, hfind]
  · intro st bid tocol x c hx hfind hscope
    rcases hscope with hs | hs <;>
      simp [resolveCardAnchor, hx, hfind, bne_iff_ne, hs]
  · intro st now newId uid bid nameP beforeP afterP b e hb hrole hname herr
    simp [appCreateColumn, hb, hrole, hname, herr]
  · intro st now uid bid colId beforeP afterP conflict b c e hb hrole hc hscope herr
    simp [appMoveColumn, hb, hrole, hc, hscope, herr]
  · intro st now newId uid bid nameP x afterP hx hfind
    simp [srvCreateColumn, srvColumnKey, hx, hfind]

/-- Witness for C7: a ghost anchor id and an out-of-scope anchor are rejected
by the FastAPI variant with the collection untouched, and the stdlib variant
treats the same ghost id as an absent bound. -/
theorem c7_witness :
    appComputeColumnSortKey stA "b1" (some "ghost") none =
      Except.error ApiError.invalidAnchor ∧
    resolveCardAnchor stA "b1" "c2" (some "k1") = Except.error ApiError.invalidAnchor ∧
    appCreateColumn stA 7 "c9" "bob" "b1" "New" (some "ghost") none =
      (stA, some ApiError.invalidAnchor) ∧
    appMoveColumn stA 7 "bob" "b1" "c3" (some "ghost") none false =
      (stA, some ApiError.invalidAnchor) ∧
    srvCreateColumn stS 7 "C9" "bob" "B1" (some "New") (some "ghost") none =
      srvCreateColumn stS 7 "C9" "bob" "B1" (some "New") none none := by
  obtain ⟨h1, h2, h3, h4, h5, h6, h7⟩ := c7_theorem
  refine ⟨?_, ?_, ?_, ?_, ?_⟩
  · exact h1 stA "b1" "ghost" none (by decide) (by decide)
  · exact h4 stA "b1" "c2" "k1" cardK1 (by decide) (by decide) (Or.inr (by decide))
  · exact h5 stA 7 "c9" "bob" "b1" "New" (some "ghost") none boardA1
      ApiError.invalidAnchor (by decide) (by decide) (by decide)
      (h1 stA "b1" "ghost" none (by decide) (by decide))
  · exact h6 stA 7 "bob" "b1" "c3" (some "ghost") none false boardA1 colA3
      ApiError.invalidAnchor (by decide) (by decide) (by decide) (by decide)
      (h1 stA "b1" "ghost" none (by decide) (by decide))
  · exact h7 stS 7 "C9" "bob" "B1" (some "New") "ghost" none (by decide) (by decide)

/-- Counterexample to C7 as stated: the stdlib create-column endpoint, given a
beforeColumnId naming no column, silently resolves it to an absent bound and
creates the column with sort key "h" instead of failing with an InvalidAnchor
client error. -/
theorem c7_counterexample :
    (srvCreateColumn stS 7 "C9" "bob" "B1" (some "New") (some "ghost") none).2 =
      none ∧
    (srvCreateColumn stS 7 "C9" "bob" "B1" (some "New") (some "ghost") none).1.columns.length =
      stS.columns.length + 1 := by decide

/-- C5 (corrected): on a uniqueness violation at persist time the move
operations retry exactly once, with the failed candidate key extended by the
filler symbol m — not with a second midpoint between the failed key and the
original right bound, and with no Conflict error after a cap.  The refined
key candidate ++ "m" does still sort strictly between the original bounds and
differs from the colliding candidate; the retried write applies it in one
step. -/
theorem c5_theorem :
    (∀ (left right : Option (List Char)),
      (∀ L, left = some L → isKey L = true) →
      (∀ R, right = some R → isKey R = true) →
      (right ≠ none → strLt (left.getD []) (right.getD []) = true) →
      zeroPadFrom (left.getD []) (right.getD []) = false →
      (∀ L, left = some L →
        strLt L (lexo_midpoint left right ++ ['m']) = true) ∧
      (∀ R, right = some R →
        strLt (lexo_midpoint left right ++ ['m']) R = true) ∧
      lexo_midpoint left right ++ ['m'] ≠ lexo_midpoint left right) ∧
    (∀ (st : AState) (now : Nat) (uid bid colId : String)
        (beforeP afterP : Option String) (b : ABoard) (c : AColumn)
        (newKey : List Char),
      findBoardA st bid = some b →
      ensureRole ["admin", "writer"] (appGetRole st b uid) = true →
      findColumnA st colId = some c → c.boardId = b.id →
      appComputeColumnSortKey st b.id beforeP afterP = Except.ok newKey →
      (appMoveColumn st now uid bid colId beforeP afterP true).2 = none ∧
      ∃ c2, List.find? (fun x : AColumn => x.id == colId)
          (appMoveColumn st now uid bid colId beforeP afterP true).1.columns =
          some c2 ∧ c2.sortKey = newKey ++ ['m'] ∧ c2.updatedAt = now) := by
  constructor
  · intro left right hKL hKR hlt hpad
    have hallL : (left.getD []).all isKeyChar = true := by
      rcases left with _ | L
      · simp
      · have := hKL L rfl
        simp only [isKey, Bool.and_eq_true] at this
        simpa using this.2
    have hallR : (right.getD []).all isKeyChar = true := by
      rcases right with _ | R
      · simp
      · have := hKR R rfl
        simp only [isKey, Bool.and_eq_true] at this
        simpa using this.2
    refine ⟨?_, ?_, ?_⟩
    · intro L hL
      have hg : left.getD [] = L := by rw [hL]; rfl
      rw [lexo_midpoint, ← hg]
      exact strLt_append_right _ _ _ (midpointFrom_lower hallL hallR)
    · intro R hR
      have hg : right.getD [] = R := by rw [hR]; rfl
      have hne : right ≠ none := by rw [hR]; simp
      have := midpointFrom_upper (L := left.getD []) (R := right.getD [])
        (t := ['m']) hallL hallR (by decide) (hlt hne) hpad
      rw [lexo_midpoint, hg]
      rw [hg] at this
      exact this
    · intro h
      have := congrArg List.length h
      simp at this
  · intro st now uid bid colId beforeP afterP b c newKey hb hrole hc hscope hkey
    have hc2 : List.find? (fun x : AColumn => x.id == colId) st.columns = some c := hc
    have hq : (c.id == colId) = true := by simpa using List.find?_some hc2
    constructor
    · simp [appMoveColumn, hb, hrole, hc, hscope, hkey]
    · simp only [appMoveColumn, hc2, hb, hrole, hscope, hkey, findColumnA]
      simp only [Bool.not_true, bne_self_eq_false, Bool.false_eq_true, Bool.not_false,
        if_false, if_true]
      exact ⟨_, find?_map_ite _ _ st.columns c hc2 hq, rfl, rfl⟩

/-- Witness for C5: with bounds "b" and "d" the refined key "cm" lies strictly
between them and differs from the colliding candidate "c"; on the fixture
state the conflicted move stores exactly that refined key. -/
theorem c5_witness :
    strLt ['b'] (lexo_midpoint (some ['b']) (some ['d']) ++ ['m']) = true ∧
    strLt (lexo_midpoint (some ['b']) (some ['d']) ++ ['m']) ['d'] = true ∧
    lexo_midpoint (some ['b']) (some ['d']) ++ ['m'] ≠
      lexo_midpoint (some ['b']) (some ['d']) ∧
    (appMoveColumn stA 7 "bob" "b1" "c3" (some "c2") (some "c1") true).2 = none ∧
    ∃ c2, List.find? (fun x : AColumn => x.id == "c3")
        (appMoveColumn stA 7 "bob" "b1" "c3" (some "c2") (some "c1") true).1.columns =
        some c2 ∧ c2.sortKey = lexo_midpoint (some ['b']) (some ['d']) ++ ['m'] ∧
      c2.updatedAt = 7 := by
  obtain ⟨hm, hop⟩ := c5_theorem
  have h1 := hm (some ['b']) (some ['d'])
    (by intro L hL; injection hL with h2; subst h2; decide)
    (by intro R hR; injection hR with h2; subst h2; decide)
    (by intro h; decide)
    (by decide)
  have h2 := hop stA 7 "bob" "b1" "c3" (some "c2") (some "c1") boardA1 colA3
    (lexo_midpoint (some ['b']) (some ['d'])) (by decide) (by decide) (by decide)
    (by decide) (by rfl)
  exact ⟨h1.1 ['b'] rfl, h1.2.1 ['d'] rfl, h1.2.2, h2.1, h2.2⟩

/-- Counterexample to C5 as stated: the conflicted move stores "cm"
(candidate "c" plus the filler symbol), which is not the second midpoint
between the failed key "c" and the original right bound "d" (that would be
"ch"). -/
theorem c5_counterexample :
    (List.find? (fun x : AColumn => x.id == "c3")
        (appMoveColumn stA 7 "bob" "b1" "c3" (some "c2") (some "c1") true).1.columns).map
      (fun x => x.sortKey) = some ['c', 'm'] ∧
    ['c', 'm'] ≠ lexo_midpoint (some ['c']) (some ['d']) := by decide

/-- C3 (confirmed): every board always has an effective admin because the
owner is unconditionally one and no membership operation touches board
ownership; the guarded membership operations leave the whole state unchanged
on any error, and the code raises LastAdminRequired when the sole admin-role
membership row would be demoted, removed or abandoned. -/
theorem c3_theorem :
    (∀ (st : AState) (b : ABoard), isEffAdminApp st b b.owner = true) ∧
    (∀ (st : SState) (b : SBoard), isEffAdminSrv st b b.owner = true) ∧
    (∀ (st : AState) (uid bid tgt r : String),
      (appChangeMemberRole st uid bid tgt r).1.boards = st.boards ∧
      ((appChangeMemberRole st uid bid tgt r).2 ≠ none →
        (appChangeMemberRole st uid bid tgt r).1 = st)) ∧
    (∀ (st : AState) (uid bid tgt : String),
      (appRemoveMember st uid bid tgt).1.boards = st.boards ∧
      ((appRemoveMember st uid bid tgt).2 ≠ none →
        (appRemoveMember st uid bid tgt).1 = st)) ∧
    (∀ (st : AState) (uid bid : String),
      (appLeaveBoard st uid bid).1.boards = st.boards ∧
      ((appLeaveBoard st uid bid).2 ≠ none → (appLeaveBoard st uid bid).1 = st)) ∧
    (∀ (st : SState) (uid bid : String),
      (srvLeave st uid bid).1.boards = st.boards ∧
      ((srvLeave st uid bid).2 ≠ none → (srvLeave st uid bid).1 = st)) ∧
    (∀ (st : AState) (uid bid tgt r : String) (b : ABoard) (m : AMembership),
      findBoardA st bid = some b →
      ensureRole ["admin"] (appGetRole st b uid) = true →
      findMemberA st b.id tgt = some m →
      ["admin", "writer", "reader"].contains r = true →
      m.role = "admin" → r ≠ "admin" →
      st.members.countP (fun x => x.boardId == b.id && x.role == "admin") ≤ 1 →
      appChangeMemberRole st uid bid tgt r = (st, some ApiError.lastAdminRequired)) ∧
    (∀ (st : SState) (uid bid : String),
      srvRoleForUser st bid uid = some "admin" →
      st.members.countP (fun m =>
        m.boardId == bid && m.role == "admin" && m.status == "active") = 0 →
      srvLeave st uid bid = (st, some ApiError.lastAdminRequired)) := by
  refine ⟨?_, ?_, ?_, ?_, ?_, ?_, ?_, ?_⟩
  · intro st b
    simp [isEffAdminApp]
  · intro st b
    simp [isEffAdminSrv]
  · intro st uid bid tgt r
    constructor
    · simp only [appChangeMemberRole]
      repeat' split
      all_goals rfl
    · simp only [appChangeMemberRole]
      repeat' split
      all_goals intro hne
      all_goals first | rfl | simp at hne
  · intro st uid bid tgt
    constructor
    · simp only [appRemoveMember]
      repeat' split
      all_goals rfl
    · simp only [appRemoveMember]
      repeat' split
      all_goals intro hne
      all_goals first | rfl | simp at hne
  · intro st uid bid
    constructor
    · simp only [appLeaveBoard]
      repeat' split
      all_goals rfl
    · simp only [appLeaveBoard]
      repeat' split
      all_goals intro hne
      all_goals first | rfl | simp at hne
  · intro st uid bid
    constructor
    · simp only [srvLeave]
      repeat' split
      all_goals rfl
    · simp only [srvLeave]
      repeat' split
      all_goals intro hne
      all_goals first | rfl | simp at hne
  · intro st uid bid tgt r b m hb hrole hm hvalid hadmin hr hcnt
    simp only [appChangeMemberRole, hb, hrole, hm, hvalid, hadmin, Bool.not_true,
      Bool.false_eq_true, if_false]
    simp [bne_iff_ne, hr, hcnt]
  · intro st uid bid hrole hcnt
    simp [srvLeave, hrole, hcnt]

/-- Witness for C3: demoting the sole admin-row member of a one-member board
is rejected with LastAdminRequired, as is the owner leaving a board with no
active admin membership row; a rejected leave changes nothing. -/
theorem c3_witness :
    appChangeMemberRole stA2 "alice" "b2" "alice" "writer" =
      (stA2, some ApiError.lastAdminRequired) ∧
    srvLeave stS2 "alice" "B2" = (stS2, some ApiError.lastAdminRequired) ∧
    (appLeaveBoard stA2 "alice" "b2").1 = stA2 ∧
    isEffAdminApp stA2 boardA2 boardA2.owner = true := by
  obtain ⟨h1, h2, h3, h4, h5, h6, h7, h8⟩ := c3_theorem
  refine ⟨?_, ?_, ?_, ?_⟩
  · exact h7 stA2 "alice" "b2" "alice" "writer" boardA2 memAliceSolo
      (by decide) (by decide) (by decide) (by decide) (by decide) (by decide) (by decide)
  · exact h8 stS2 "alice" "B2" (by decide) (by decide)
  · exact (h5 stA2 "alice" "b2").2 (by decide)
  · exact h1 stA2 boardA2

/-- C4 (code bug): db.py includes the entity id in the unique constraint, so
any set of rows with pairwise distinct ids satisfies the constraint no matter
how the sort keys collide; in particular two columns of one board sharing a
sort key are both storable, while the intended constraint of the spec rejects
the second.  The claim describes the intended constraint, not the code. -/
theorem c4_theorem :
    (∀ cols : List AColumn, (cols.map (fun c => c.id)).Nodup → uqColumnsOrder cols) ∧
    (∀ cards : List ACard, (cards.map (fun c => c.id)).Nodup → uqCardsOrder cards) ∧
    (uqColumnsOrder [colX, colY] ∧ ¬ uqColumnsIntended [colX, colY] ∧
      colX.boardId = colY.boardId ∧ colX.sortKey = colY.sortKey ∧ colX.id ≠ colY.id) := by
  refine ⟨?_, ?_, ?_⟩
  · intro cols h
    have h2 : ((cols.map (fun c => (c.boardId, c.sortKey, c.id))).map
        (fun t => t.2.2)).Nodup := by
      rw [List.map_map]
      exact h
    exact List.Nodup.of_map _ h2
  · intro cards h
    have h2 : ((cards.map (fun c => (c.boardId, c.columnId, c.sortKey, c.id))).map
        (fun t => t.2.2.2)).Nodup := by
      rw [List.map_map]
      exact h
    exact List.Nodup.of_map _ h2
  · refine ⟨?_, ?_, by decide, by decide, by decide⟩
    · unfold uqColumnsOrder
      decide
    · unfold uqColumnsIntended
      decide

/-- Witness for C4: two same-key columns with distinct ids pass the id-inclusive
constraint of db.py. -/
theorem c4_witness : uqColumnsOrder [colX, colY] ∧ uqCardsOrder [cardK1, cardK2] := by
  obtain ⟨h1, h2, h3⟩ := c4_theorem
  exact ⟨h1 [colX, colY] (by decide), h2 [cardK1, cardK2] (by decide)⟩

/-- Witness for C8: a token-less card move on the fixture state is not
rejected with PreconditionFailed by the FastAPI variant, nor is a token-less
column move by either variant. -/
theorem c8_witness :
    (appMoveCard stA 5 "bob" "b1" "k1" none none none none false).2 ≠
      some ApiError.preconditionFailed ∧
    (appMoveColumn stA 5 "bob" "b1" "c3" none none false).2 ≠
      some ApiError.preconditionFailed ∧
    (srvMoveColumn stS 5 "bob" "B1" "C1" none none).2 ≠
      some ApiError.preconditionFailed := by
  obtain ⟨h1, h2, h3, h4⟩ := c8_theorem
  exact ⟨h1 stA 5 "bob" "b1" "k1" none none none false,
    h2 stA 5 "bob" "b1" "c3" none none false,
    h3 stS 5 "bob" "B1" "C1" none none⟩
